import Mathlib

/-!
Verification of the part-priority scoring engine of the script_bank repository.

The embedding models the pandas pipeline of src/core/scorer.py
(PartScorer.calculate_scores and its stages), src/core/feature_engineer.py
(FeatureEngineer.transform) and src/src/utils/validators.py
(DataValidator.validate_batch) over exact rational arithmetic.

Modelling conventions:
  * A dataframe cell is a rational number, a string, or null (pandas NaN).
  * A dataframe is an ordered list of column names plus a list of rows;
    each row is an association list from column name to cell, and a column
    name that is absent from a row denotes a NaN entry of that column.
  * Code that can raise a Python exception is modelled in the Option monad;
    none is an uncaught exception escaping the modelled function.
  * numpy log1p is transcendental, hence not representable on rationals;
    the pipeline is parameterised by a function log1p standing for it.
    Theorems quantify over it and concrete evaluations instantiate it at
    inputs whose configuration has no log transforms, so its values are
    never consumed there.
  * float64 arithmetic is idealised as exact rational arithmetic.
-/

namespace ScriptBank

/-- One dataframe cell: a numeric value, a string value, or NaN. -/
inductive Cell where
  | num (q : ℚ)
  | str (s : String)
  | null
deriving DecidableEq, Repr

/-- A dataframe row: association list from column name to cell. -/
abbrev Row := List (String × Cell)

/-- First binding of a column in a row, if any. -/
def rlookup : Row → String → Option Cell
  | [], _ => none
  | (k, v) :: t, c => if k = c then some v else rlookup t c

/-- The cell of column `c` in row `r`; a column with no binding is NaN. -/
def cellAt (r : Row) (c : String) : Cell :=
  (rlookup r c).getD Cell.null

/-- Replace the first binding of `c` (or append a new one). -/
def rset : Row → String → Cell → Row
  | [], c, v => [(c, v)]
  | (k, w) :: t, c, v => if k = c then (c, v) :: t else (k, w) :: rset t c v

/-- A dataframe: ordered column names and rows. -/
structure Frame where
  cols : List String
  rows : List Row
deriving DecidableEq, Repr

/-- Column membership test (pandas `c in df.columns`). -/
def Frame.hasCol (f : Frame) (c : String) : Bool :=
  f.cols.contains c

/-- Column assignment `df[c] = vals` (pandas keeps the position of an
existing column and appends a new one at the end). -/
def Frame.setCol (f : Frame) (c : String) (vals : List Cell) : Frame :=
  { cols := if f.cols.contains c then f.cols else f.cols ++ [c]
    rows := List.zipWith (fun r v => rset r c v) f.rows vals }

/-- The cells of column `c`, one per row. -/
def Frame.colCells (f : Frame) (c : String) : List Cell :=
  f.rows.map (fun r => cellAt r c)

/-- The numeric values of column `c` (non-numeric cells read as 0; in the
pipeline this accessor is only used on columns built from numeric values). -/
def Frame.colQ (f : Frame) (c : String) : List ℚ :=
  f.rows.map (fun r =>
    match cellAt r c with
    | Cell.num q => q
    | _ => 0)

/-- Short-circuiting traversal: none as soon as one element fails
(a Python exception raised while computing a whole column). -/
def mapOpt (g : α → Option β) : List α → Option (List β)
  | [] => some []
  | a :: t => do
    let b ← g a
    let bs ← mapOpt g t
    pure (b :: bs)

/-- pandas `fillna(0)` on one cell. -/
def Cell.fillna0 : Cell → Cell
  | Cell.null => Cell.num 0
  | c => c

section BasicLemmas

theorem rlookup_rset (r : Row) (c c' : String) (v : Cell) :
    rlookup (rset r c v) c' = if c = c' then some v else rlookup r c' := by
  induction r with
  | nil => simp [rset, rlookup]
  | cons h t ih =>
    obtain ⟨k, w⟩ := h
    by_cases hk : k = c
    · rw [hk]
      simp only [rset, if_pos rfl, rlookup]
      by_cases hc : c = c' <;> simp [hc]
    · simp only [rset, if_neg hk, rlookup]
      by_cases hc : k = c'
      · have hcc : ¬ c = c' := fun h => hk (hc.trans h.symm)
        simp [hc, hcc]
      · simp [hc, ih]

theorem cellAt_rset (r : Row) (c c' : String) (v : Cell) :
    cellAt (rset r c v) c' = if c = c' then v else cellAt r c' := by
  simp only [cellAt, rlookup_rset]
  by_cases hc : c = c' <;> simp [hc]

theorem length_rows_setCol (f : Frame) (c : String) (vals : List Cell)
    (h : vals.length = f.rows.length) :
    (f.setCol c vals).rows.length = f.rows.length := by
  simp [Frame.setCol, h]

theorem mem_cols_setCol (f : Frame) (c c' : String) (vals : List Cell) :
    c' ∈ (f.setCol c vals).cols ↔ c' = c ∨ c' ∈ f.cols := by
  simp only [Frame.setCol]
  by_cases hc : f.cols.contains c
  · simp only [if_pos hc]
    constructor
    · exact fun h => Or.inr h
    · rintro (rfl | h)
      · simpa using hc
      · exact h
  · simp only [if_neg hc, List.mem_append, List.mem_singleton]
    tauto

theorem hasCol_true_iff (f : Frame) (c : String) :
    f.hasCol c = true ↔ c ∈ f.cols :=
  ⟨fun h => List.mem_of_elem_eq_true h, fun h => List.elem_eq_true_of_mem h⟩

theorem mapOpt_length {g : α → Option β} {l : List α} {l' : List β}
    (h : mapOpt g l = some l') : l'.length = l.length := by
  induction l generalizing l' with
  | nil => simp [mapOpt] at h; simp [← h]
  | cons a t ih =>
    simp only [mapOpt, Option.bind_eq_bind, Option.bind_eq_some, Option.pure_def,
      Option.some.injEq] at h
    obtain ⟨b, _, bs, hbs, rfl⟩ := h
    simp [ih hbs]

theorem mapOpt_getElem {g : α → Option β} {l : List α} {l' : List β}
    (h : mapOpt g l = some l') (i : ℕ) (hi : i < l.length) :
    ∃ hi' : i < l'.length, g l[i] = some (l'[i]) := by
  induction l generalizing l' i with
  | nil => simp at hi
  | cons a t ih =>
    simp only [mapOpt, Option.bind_eq_bind, Option.bind_eq_some, Option.pure_def,
      Option.some.injEq] at h
    obtain ⟨b, hb, bs, hbs, rfl⟩ := h
    cases i with
    | zero => exact ⟨by simp, by simpa using hb⟩
    | succ n =>
      have hn : n < t.length := by simpa using hi
      obtain ⟨hn', hg⟩ := ih hbs n hn
      exact ⟨by simpa using hn', by simpa using hg⟩

end BasicLemmas

/-! ## Feature engineering (src/core/feature_engineer.py, FeatureEngineer) -/

/-- The keys of the feature configuration read by FeatureEngineer
(`config.get('log_transforms', ...)`, `config.get('inverse_transforms', ...)`);
the structure defaults are the code's fallback lists. -/
structure FeatureConfig where
  log_transforms : List String := ["inventory", "first_price", "moq"]
  inverse_transforms : List String := ["leadtime_weeks", "first_price", "moq"]
deriving DecidableEq, Repr

/-- One cell of a log feature: `np.log1p(df[f].fillna(0).clip(lower=0))`.
`log1p` is the abstract embedding of the transcendental `np.log1p`;
a string cell raises (pandas clip comparison on a non-numeric value). -/
def logCell (log1p : ℚ → ℚ) : Cell → Option Cell
  | Cell.num q => some (Cell.num (log1p (max q 0)))
  | Cell.null => some (Cell.num (log1p 0))
  | Cell.str _ => none

/-- `_create_log_features`: fold over the configured fields. -/
def logStage (log1p : ℚ → ℚ) : List String → Frame → Option Frame
  | [], f => some f
  | feat :: rest, f =>
    if f.hasCol feat then do
      let vals ← mapOpt (fun r => logCell log1p (cellAt r feat)) f.rows
      logStage log1p rest (f.setCol ("log_" ++ feat) vals)
    else
      logStage log1p rest f

/-- One cell of an inverse feature: `1 / (1 + df[f].fillna(0).clip(lower=0))`. -/
def invCell : Cell → Option Cell
  | Cell.num q => some (Cell.num (1 / (1 + max q 0)))
  | Cell.null => some (Cell.num 1)
  | Cell.str _ => none

/-- `_create_inverse_features`: fold over the configured fields. -/
def invStage : List String → Frame → Option Frame
  | [], f => some f
  | feat :: rest, f =>
    if f.hasCol feat then do
      let vals ← mapOpt (fun r => invCell (cellAt r feat)) f.rows
      invStage rest (f.setCol ("inv_" ++ feat) vals)
    else
      invStage rest f

/-- `is_authorized = (df['source_type'] == 'Authorized').astype(int)`:
equality against a string is elementwise and never raises. -/
def isAuthorizedCell : Cell → Cell
  | Cell.str s => Cell.num (if s = "Authorized" then 1 else 0)
  | _ => Cell.num 0

/-- `has_datasheet = df['datasheet'].notna().astype(int)`. -/
def hasDatasheetCell : Cell → Cell
  | Cell.null => Cell.num 0
  | _ => Cell.num 1

/-- `in_stock = (df['inventory'] > 0).astype(int)`: an ordered comparison
against a number raises on a string cell. -/
def inStockCell : Cell → Option Cell
  | Cell.num q => some (Cell.num (if 0 < q then 1 else 0))
  | Cell.null => some (Cell.num 0)
  | Cell.str _ => none

/-- `immediate_availability = (df['leadtime_weeks'] == 0).astype(int)`:
equality comparison never raises. -/
def immediateCell : Cell → Cell
  | Cell.num q => Cell.num (if q = 0 then 1 else 0)
  | _ => Cell.num 0

/-- `_create_binary_features`: each indicator only when its raw column exists. -/
def binaryStage (f : Frame) : Option Frame := do
  let f1 :=
    if f.hasCol "source_type" then
      f.setCol "is_authorized"
        (f.rows.map (fun r => isAuthorizedCell (cellAt r "source_type")))
    else f
  let f2 :=
    if f1.hasCol "datasheet" then
      f1.setCol "has_datasheet"
        (f1.rows.map (fun r => hasDatasheetCell (cellAt r "datasheet")))
    else f1
  let f3 ←
    if f2.hasCol "inventory" then do
      let vals ← mapOpt (fun r => inStockCell (cellAt r "inventory")) f2.rows
      pure (f2.setCol "in_stock" vals)
    else pure f2
  let f4 :=
    if f3.hasCol "leadtime_weeks" then
      f3.setCol "immediate_availability"
        (f3.rows.map (fun r => immediateCell (cellAt r "leadtime_weeks")))
    else f3
  pure f4

/-- One row of `availability_score`:
`clip(in_stock*0.5 + immediate_availability*0.3
      + clip(inventory / moq.clip(lower=1), upper=10)*0.2, 0, 2)`.
NaN in any operand propagates to a NaN result; a string in `inventory` or
`moq` raises (numeric division); `in_stock` and `immediate_availability`
fall back to the scalar 0 when their column is absent (`df.get(..., 0)`). -/
def availabilityCell (f : Frame) (r : Row) : Option Cell := do
  let invc := cellAt r "inventory"
  let moqc := cellAt r "moq"
  let stoc := if f.hasCol "in_stock" then cellAt r "in_stock" else Cell.num 0
  let immc := if f.hasCol "immediate_availability" then cellAt r "immediate_availability"
              else Cell.num 0
  match invc, moqc with
  | Cell.str _, _ => none
  | _, Cell.str _ => none
  | Cell.num iv, Cell.num mv =>
    match stoc, immc with
    | Cell.num sv, Cell.num tv =>
      let ratio := min (iv / max mv 1) 10
      some (Cell.num (max 0 (min (sv * (1/2) + tv * (3/10) + ratio * (1/5)) 2)))
    | _, _ => some Cell.null
  | _, _ => some Cell.null

/-- `_create_composite_features`: availability score (only when both
`inventory` and `moq` exist) and the demand pass-through. -/
def compositeStage (f : Frame) : Option Frame := do
  let f1 ←
    if f.hasCol "inventory" && f.hasCol "moq" then do
      let vals ← mapOpt (availabilityCell f) f.rows
      pure (f.setCol "availability_score" vals)
    else pure f
  let f2 :=
    if f1.hasCol "demand_all_time" then
      f1.setCol "demand_score"
        (f1.rows.map (fun r => (cellAt r "demand_all_time").fillna0))
    else f1
  pure f2

/-- The column-name filter of `_scale_features`. -/
def isScaleCol (c : String) : Bool :=
  c.startsWith "log_" || c.startsWith "inv_" ||
  c.startsWith "availability_" || c.startsWith "demand_"

/-- numpy linear-interpolation percentile of a batch (as used by
`RobustScaler` for the 25th/50th/75th percentiles): on the sorted values,
position `p/100 * (n-1)` interpolated between neighbours. -/
def percentile (xs : List ℚ) (p : ℚ) : ℚ :=
  let s := xs.insertionSort (· ≤ ·)
  let n := s.length
  let pos := p * (n - 1) / 100
  let i := ⌊pos⌋.toNat
  let frac := pos - (i : ℚ)
  let lo := s.getD i 0
  let hi := s.getD (i + 1) lo
  lo + (hi - lo) * frac

/-- `RobustScaler.fit_transform` on one feature column:
`(x - median) / (q75 - q25)`, an interquartile range of zero handled as 1. -/
def robustScale (xs : List ℚ) : List ℚ :=
  let med := percentile xs 50
  let q1 := percentile xs 25
  let q3 := percentile xs 75
  let scale := if q3 - q1 = 0 then 1 else q3 - q1
  xs.map (fun x => (x - med) / scale)

/-- `_scale_features`: the prefixed columns are first `fillna(0)`-assigned,
then robust-scaled; a failure of the scaler (non-numeric data) is caught and
leaves the (already fillna'd) columns unscaled. Total: no exception escapes. -/
def scaleStage (f : Frame) : Frame :=
  let scCols := f.cols.filter isScaleCol
  let f1 := scCols.foldl
    (fun acc c => acc.setCol c ((acc.colCells c).map Cell.fillna0)) f
  if scCols.any (fun c => (f1.colCells c).any (fun x => match x with
      | Cell.str _ => true
      | _ => false)) then
    f1
  else
    scCols.foldl
      (fun acc c => acc.setCol c ((robustScale (f1.colQ c)).map Cell.num)) f1

/-- `FeatureEngineer.transform`: the five stages in order. -/
def transform (log1p : ℚ → ℚ) (cfg : FeatureConfig) (f : Frame) : Option Frame := do
  let f1 ← logStage log1p cfg.log_transforms f
  let f2 ← invStage cfg.inverse_transforms f1
  let f3 ← binaryStage f2
  let f4 ← compositeStage f3
  pure (scaleStage f4)

/-! ## Scoring (src/core/scorer.py, PartScorer) -/

/-- The scorer configuration: `config['weights']` (an insertion-ordered dict,
modelled as an ordered association list) and `config['features']`. -/
structure Config where
  weights : List (String × ℚ)
  features : FeatureConfig
deriving DecidableEq, Repr

/-- One weighted contribution `df[feature].fillna(0) * weight` for one row:
a string cell raises (`str * float` is a TypeError; all configurations in the
repository use float weights). -/
def weightedCell (w : ℚ) : Cell → Option ℚ
  | Cell.num q => some (q * w)
  | Cell.null => some 0
  | Cell.str _ => none

/-- The weighted-sum loop of `_calculate_base_score`: start from 0.0 and add
each weighted feature that exists as a column; a weight whose feature is
missing only logs a warning and contributes nothing. -/
def weightedSums (weights : List (String × ℚ)) (f : Frame) : Option (List ℚ) :=
  mapOpt
    (fun r =>
      weights.foldlM
        (fun acc fw =>
          if f.hasCol fw.1 then do
            let v ← weightedCell fw.2 (cellAt r fw.1)
            pure (acc + v)
          else pure acc)
        (0 : ℚ))
    f.rows

/-- `df['inventory'] == 0` on one cell (equality: never raises, NaN is false). -/
def invIsZero : Cell → Bool
  | Cell.num q => q = 0
  | _ => false

/-- `df['leadtime_weeks'] > 12` on one cell (ordered comparison: a string
raises, NaN is false). -/
def leadGt12 : Cell → Option Bool
  | Cell.num q => some (12 < q)
  | Cell.null => some false
  | Cell.str _ => none

/-- The availability gate mask of one row:
`(df['inventory'] == 0) & (df['leadtime_weeks'] > 12)`. -/
def unavailRow (r : Row) : Option Bool :=
  (leadGt12 (cellAt r "leadtime_weeks")).map
    (fun b => invIsZero (cellAt r "inventory") && b)

/-- `PartScorer._calculate_base_score`: the weighted sum, then the
availability gate zeroing `base_score` where the mask holds — applied only
when both `inventory` and `leadtime_weeks` are columns. -/
def calculate_base_score (weights : List (String × ℚ)) (f : Frame) :
    Option (List ℚ) := do
  let sums ← weightedSums weights f
  if f.hasCol "inventory" && f.hasCol "leadtime_weeks" then do
    let flags ← mapOpt unavailRow f.rows
    pure (List.zipWith (fun s u => if u then (0 : ℚ) else s) sums flags)
  else
    pure sums

/-- The four predefined boost rules of `_apply_boosts`. -/
inductive RuleId where
  | ample_stock
  | immediate_ship
  | authorized_source
  | high_demand
deriving DecidableEq, Repr

/-- The rule list with its multipliers 1.1, 1.15, 1.05, 1.08, in the order
the code applies them. -/
def boostRules : List (RuleId × ℚ) :=
  [(RuleId.ample_stock, 11/10), (RuleId.immediate_ship, 23/20),
   (RuleId.authorized_source, 21/20), (RuleId.high_demand, 27/25)]

/-- `df.get('inventory', 0) >= 10 * df.get('moq', 1)` on one row.
An absent column reads as the scalar default; NaN comparisons are false;
a string operand raises (which skips the whole rule). -/
def ampleRow (f : Frame) (r : Row) : Option Bool :=
  let invc := if f.hasCol "inventory" then cellAt r "inventory" else Cell.num 0
  let moqc := if f.hasCol "moq" then cellAt r "moq" else Cell.num 1
  match invc, moqc with
  | Cell.num a, Cell.num b => some (10 * b ≤ a)
  | Cell.str _, _ => none
  | _, Cell.str _ => none
  | _, _ => some false

/-- `df.get('leadtime_weeks', 999) == 0` on one row (equality never raises). -/
def immediateRow (f : Frame) (r : Row) : Option Bool :=
  let c := if f.hasCol "leadtime_weeks" then cellAt r "leadtime_weeks" else Cell.num 999
  match c with
  | Cell.num a => some (a = 0)
  | _ => some false

/-- `df.get('source_type', '') == 'Authorized'` on one row. -/
def authorizedRow (f : Frame) (r : Row) : Option Bool :=
  let c := if f.hasCol "source_type" then cellAt r "source_type" else Cell.str ""
  match c with
  | Cell.str s => some (s = "Authorized")
  | _ => some false

/-- `df.get('demand_all_time', 0) > 100` on one row (a string raises). -/
def highDemandRow (f : Frame) (r : Row) : Option Bool :=
  let c := if f.hasCol "demand_all_time" then cellAt r "demand_all_time" else Cell.num 0
  match c with
  | Cell.num a => some (100 < a)
  | Cell.null => some false
  | Cell.str _ => none

/-- The boolean mask of one rule over the whole batch; none models the
exception that makes `_apply_boosts` skip that rule. -/
def ruleMask (id : RuleId) (f : Frame) : Option (List Bool) :=
  match id with
  | RuleId.ample_stock => mapOpt (ampleRow f) f.rows
  | RuleId.immediate_ship => mapOpt (immediateRow f) f.rows
  | RuleId.authorized_source => mapOpt (authorizedRow f) f.rows
  | RuleId.high_demand => mapOpt (highDemandRow f) f.rows

/-- One iteration of the boost loop: on a successful mask with at least one
match, `boosted_score[mask] *= multiplier`; otherwise the rule is skipped
(an all-false mask and a skip produce the same scores). -/
def boostStep (f : Frame) (acc : List ℚ) (rule : RuleId × ℚ) : List ℚ :=
  match ruleMask rule.1 f with
  | none => acc
  | some mask =>
    if mask.contains true then
      List.zipWith (fun b m => if m then b * rule.2 else b) acc mask
    else acc

/-- `PartScorer._apply_boosts`: start from a copy of `base_score` and fold
the four rules in order. -/
def apply_boosts (f : Frame) : List ℚ :=
  boostRules.foldl (boostStep f) (f.colQ "base_score")

/-- `Series.max()` of a nonempty batch (defined as 0 on an empty one, which
the callers never reach). -/
def seriesMax : List ℚ → ℚ
  | [] => 0
  | h :: t => t.foldl max h

/-- `Series.min()` of a nonempty batch. -/
def seriesMin : List ℚ → ℚ
  | [] => 0
  | h :: t => t.foldl min h

/-- numpy round-half-to-even to an integer. -/
def roundHalfEven (x : ℚ) : ℤ :=
  let n := ⌊x⌋
  let r := x - (n : ℚ)
  if r < 1/2 then n
  else if 1/2 < r then n + 1
  else if n % 2 = 0 then n else n + 1

/-- pandas `Series.round(2)`. -/
def round2 (q : ℚ) : ℚ :=
  (roundHalfEven (q * 100) : ℚ) / 100

/-- `PartScorer._normalize_scores` with the scaler
`MinMaxScaler(feature_range=(1, 100))` of src/core/scorer.py:
all-equal scores (or an empty series) become the constant 50; with no
positive score everything becomes 0; otherwise only the positive scores are
min-max rescaled into [1, 100] (a zero data range is handled as 1 by the
scaler) and every other score — zero or negative — is left as it is; the
result is rounded to 2 decimals. The `except` fallback of the code repeats
the same min-max formula and is unreachable on exact rationals. -/
def normalize_scores (scores : List ℚ) : List ℚ :=
  if scores = [] ∨ seriesMax scores = seriesMin scores then
    List.replicate scores.length (50 : ℚ)
  else
    let pos := scores.filter (fun x => 0 < x)
    if pos = [] then
      List.replicate scores.length (0 : ℚ)
    else
      let dmin := seriesMin pos
      let dmax := seriesMax pos
      let range := if dmax = dmin then 1 else dmax - dmin
      scores.map (fun x =>
        if 0 < x then round2 (1 + (x - dmin) * 99 / range) else round2 x)

/-- `Series.rank(pct=True) * 100`: average rank of ties divided by the count,
times 100. -/
def percentileRank (scores : List ℚ) : List ℚ :=
  let n : ℚ := scores.length
  scores.map (fun s =>
    let lt : ℚ := (scores.filter (fun x => x < s)).length
    let eq : ℚ := (scores.filter (fun x => x = s)).length
    (lt + (eq + 1) / 2) / n * 100)

/-- The sort key of the final `sort_values('priority_score', ascending=False)`. -/
def priorityKey (r : Row) : ℚ :=
  match cellAt r "priority_score" with
  | Cell.num q => q
  | _ => 0

/-- Row order of the ascending argsort. -/
def rowLe (a b : Row) : Prop := priorityKey a ≤ priorityKey b

instance : DecidableRel rowLe := fun a b =>
  inferInstanceAs (Decidable (priorityKey a ≤ priorityKey b))

instance : IsTotal Row rowLe := ⟨fun a b => le_total _ _⟩

instance : IsTrans Row rowLe := ⟨fun _ _ _ => le_trans⟩

/-- `df.sort_values('priority_score', ascending=False)`: pandas argsorts
ascending and reverses the indexer, so the descending order is the reverse of
a stable ascending sort (numpy's introsort runs an insertion sort on batches
of this size, and ties of the ascending order end up reversed). -/
def sortFrame (f : Frame) : Frame :=
  { cols := f.cols, rows := (f.rows.insertionSort rowLe).reverse }

/-- The early return of `calculate_scores` on an empty dataframe: a copy with
the three columns `priority_score`, `score_percentile`, `base_score` appended
(and no `boosted_score` column). -/
def emptyResult (f : Frame) : Frame :=
  ((f.setCol "priority_score" []).setCol "score_percentile" []).setCol "base_score" []

/-- The nonempty path of `calculate_scores` up to (not including) the final
sort: engineer features, base score, boosts, normalisation, percentile. -/
def scoresPreSort (log1p : ℚ → ℚ) (cfg : Config) (normalize : Bool)
    (f : Frame) : Option Frame := do
  let eng ← transform log1p cfg.features f
  let base ← calculate_base_score cfg.weights eng
  let f1 := eng.setCol "base_score" (base.map Cell.num)
  let boosted := apply_boosts f1
  let f2 := f1.setCol "boosted_score" (boosted.map Cell.num)
  let priority := if normalize then normalize_scores boosted else boosted
  let f3 := f2.setCol "priority_score" (priority.map Cell.num)
  let f4 := f3.setCol "score_percentile" ((percentileRank priority).map Cell.num)
  pure f4

/-- `PartScorer.calculate_scores`: empty input short-circuits; otherwise the
pipeline result is sorted by descending priority score. -/
def calculate_scores (log1p : ℚ → ℚ) (cfg : Config) (normalize : Bool)
    (f : Frame) : Option Frame :=
  if f.rows = [] then
    some (emptyResult f)
  else
    (scoresPreSort log1p cfg normalize f).map sortFrame

/-! ## Validation (src/src/utils/validators.py, DataValidator) -/

/-- One validation issue. Only the fields every computation reads are kept:
the type, the severity and `affected_rows` (`i.get('affected_rows', 0)` is 0
for coverage issues, which carry no such key). The human-readable message
and example values do not influence any result. -/
structure VIssue where
  itype : String
  severity : String
  affected : ℕ
deriving DecidableEq, Repr

/-- The ValidationResult dataclass. `field_coverage` keeps, per column, the
`coverage_pct` entry (none models the NaN that numpy produces for a
zero-row batch); the unused statistics (null counts, dtypes, unique counts)
are omitted. -/
structure ValidationResult where
  is_valid : Bool
  total_rows : ℕ
  valid_rows : ℤ
  issues : List VIssue
  field_coverage : List (String × Option ℚ)
  quality_score : ℚ
deriving DecidableEq, Repr

/-- The configuration thresholds `config['quality_thresholds']`, with the
`.get(..., default)` fallbacks of the code as structure defaults, plus
`required_coverage`. -/
structure VConfig where
  required_coverage : List (String × ℚ) := []
  min_inventory : ℚ := 0
  max_inventory : ℚ := 1000000
  min_price : ℚ := 1/100
  max_price : ℚ := 100000
  min_moq : ℚ := 1
  max_moq : ℚ := 100000
  min_leadtime_weeks : ℚ := 0
  max_leadtime_weeks : ℚ := 52
deriving DecidableEq, Repr

/-- `_validate_structure`: the empty-dataframe issue and the
missing-required-columns issue (required columns are `pn` and `inventory`). -/
def validateStructure (f : Frame) : List VIssue :=
  (if f.rows = [] then
    [{ itype := "empty_dataframe", severity := "critical", affected := 0 }]
   else []) ++
  (if ["pn", "inventory"].any (fun c => !(f.hasCol c)) then
    [{ itype := "missing_columns", severity := "critical", affected := f.rows.length }]
   else [])

/-- `_calculate_field_coverage`: per column, the percentage of non-null
cells; on a zero-row batch numpy's `0 / 0` produces NaN (none), not an
exception. -/
def fieldCoverage (f : Frame) : List (String × Option ℚ) :=
  f.cols.map (fun c =>
    (c, if f.rows.length = 0 then none
        else
          let nulls := (f.colCells c).count Cell.null
          some (((f.rows.length : ℚ) - nulls) / (f.rows.length : ℚ) * 100)))

/-- `_validate_field_coverage`: a warning per configured field whose actual
coverage is below the requirement (a NaN coverage compares false). -/
def coverageIssues (req : List (String × ℚ)) (cov : List (String × Option ℚ)) :
    List VIssue :=
  req.filterMap (fun fr =>
    match cov.lookup fr.1 with
    | some (some actual) =>
      if actual < fr.2 then
        some { itype := "insufficient_coverage", severity := "warning", affected := 0 }
      else none
    | _ => none)

/-- `df[field] < min_val | df[field] > max_val` on a non-null cell: ordered
comparison, raising on a string. -/
def outOfRange (lo hi : ℚ) : Cell → Option Bool
  | Cell.num q => some (q < lo || hi < q)
  | Cell.null => some false
  | Cell.str _ => none

/-- The range check of one configured numeric field. -/
def rangeCheck (name : String) (lo hi : ℚ) (f : Frame) : Option (List VIssue) :=
  if f.hasCol name then
    (mapOpt (fun r => outOfRange lo hi (cellAt r name)) f.rows).map
      (fun flags =>
        if 0 < flags.count true then
          [{ itype := "out_of_range", severity := "warning",
             affected := flags.count true }]
        else [])
  else some []

/-- `_validate_data_quality`: range check of the four numeric fields, in the
iteration order of the dict literal, concatenating the produced issues. -/
def dataQualityIssues (cfg : VConfig) (f : Frame) : Option (List VIssue) := do
  let i1 ← rangeCheck "inventory" cfg.min_inventory cfg.max_inventory f
  let i2 ← rangeCheck "first_price" cfg.min_price cfg.max_price f
  let i3 ← rangeCheck "moq" cfg.min_moq cfg.max_moq f
  let i4 ← rangeCheck "leadtime_weeks" cfg.min_leadtime_weeks cfg.max_leadtime_weeks f
  pure (i1 ++ i2 ++ i3 ++ i4)

/-- One row of the missing-price check:
`(df['inventory'] > 0) & (df['first_price'].isnull())` (the ordered
comparison raises on a string inventory cell; `isnull` never raises). -/
def missingPriceRow (r : Row) : Option Bool := do
  let pos ← match cellAt r "inventory" with
            | Cell.num q => some (decide (0 < q))
            | Cell.null => some false
            | Cell.str _ => none
  pure (pos && decide (cellAt r "first_price" = Cell.null))

/-- The unavailable-components info issue (both gate columns required). -/
def unavailableIssue (f : Frame) : Option (List VIssue) :=
  if f.hasCol "inventory" && f.hasCol "leadtime_weeks" then
    (mapOpt unavailRow f.rows).map (fun flags =>
      if 0 < flags.count true then
        [{ itype := "unavailable_components", severity := "info",
           affected := flags.count true }]
      else [])
  else some []

/-- The in-stock-but-missing-price warning issue. -/
def missingPriceIssue (f : Frame) : Option (List VIssue) :=
  if f.hasCol "inventory" && f.hasCol "first_price" then
    (mapOpt missingPriceRow f.rows).map (fun flags =>
      if 0 < flags.count true then
        [{ itype := "missing_price_data", severity := "warning",
           affected := flags.count true }]
      else [])
  else some []

/-- `_validate_business_rules`: the two checks, each only when its columns
exist, concatenated in order. -/
def businessRuleIssues (f : Frame) : Option (List VIssue) := do
  let i1 ← unavailableIssue f
  let i2 ← missingPriceIssue f
  pure (i1 ++ i2)

/-- The per-issue deduction of `_calculate_quality_score`. -/
def severityPenalty (i : VIssue) : ℚ :=
  if i.severity = "critical" then 25
  else if i.severity = "warning" then 10
  else if i.severity = "info" then 2
  else 0

/-- The average coverage `sum(coverage_pct) / len(field_coverage)`; a NaN
percentage (zero-row batch) makes the sum NaN. -/
def avgCoverage (cov : List (String × Option ℚ)) : Option ℚ :=
  if cov.any (fun e => e.2.isNone) then none
  else some ((cov.map (fun e => e.2.getD 0)).sum / cov.length)

/-- `_calculate_quality_score`: 100 minus the per-severity deductions minus
the coverage penalty `max(0, (95 - avg) * 0.5)`, clamped into [0, 100].
Python's `max(0, nan)` is 0, so a NaN average coverage yields no penalty.
`sum(...) / len(field_coverage)` raises ZeroDivisionError when the batch has
no columns at all — that exception escapes `validate_batch`. -/
def calculate_quality_score (issues : List VIssue)
    (cov : List (String × Option ℚ)) : Option ℚ :=
  if cov.length = 0 then none
  else
    let afterIssues := (100 : ℚ) - (issues.map severityPenalty).sum
    let covPenalty :=
      match avgCoverage cov with
      | none => 0
      | some t => max 0 ((95 - t) * (1/2))
    some (max 0 (min 100 (afterIssues - covPenalty)))

/-- `DataValidator.validate_batch`: structural, coverage, data-quality and
business-rule issues in that order, then the aggregate metrics. The Option
models the exceptions that escape it (ZeroDivisionError on a zero-column
batch; TypeError on string data in a numerically compared field). -/
def validate_batch (cfg : VConfig) (f : Frame) : Option ValidationResult := do
  let structural := validateStructure f
  let cov := fieldCoverage f
  let covIss := coverageIssues cfg.required_coverage cov
  let quality ← dataQualityIssues cfg f
  let business ← businessRuleIssues f
  let issues := structural ++ covIss ++ quality ++ business
  let critical := issues.filter (fun i => i.severity = "critical")
  let validRows : ℤ := f.rows.length - ((critical.map VIssue.affected).sum : ℤ)
  let score ← calculate_quality_score issues cov
  pure { is_valid := critical.length = 0
         total_rows := f.rows.length
         valid_rows := max 0 validRows
         issues := issues
         field_coverage := cov
         quality_score := score }

/-! ## Validator: totality on well-typed batches, and the structure of the
returned report -/

/-- Whether a cell holds a string (the cells on which numeric comparisons
raise TypeError). -/
def isStrCell : Cell → Bool
  | Cell.str _ => true
  | _ => false

theorem mapOpt_eq_some_of {g : α → Option β} {l : List α}
    (h : ∀ a ∈ l, (g a).isSome) : ∃ l', mapOpt g l = some l' := by
  induction l with
  | nil => exact ⟨[], rfl⟩
  | cons a t ih =>
    obtain ⟨b, hb⟩ := Option.isSome_iff_exists.mp (h a (by simp))
    obtain ⟨bs, hbs⟩ := ih (fun x hx => h x (by simp [hx]))
    exact ⟨b :: bs, by simp [mapOpt, hb, hbs]⟩

theorem outOfRange_isSome (lo hi : ℚ) (c : Cell) (h : isStrCell c = false) :
    (outOfRange lo hi c).isSome := by
  cases c <;> simp_all [outOfRange, isStrCell]

theorem rangeCheck_eq_some (name : String) (lo hi : ℚ) (f : Frame)
    (h : ∀ r ∈ f.rows, isStrCell (cellAt r name) = false) :
    ∃ l, rangeCheck name lo hi f = some l ∧ ∀ i ∈ l, i.severity = "warning" := by
  unfold rangeCheck
  by_cases hcol : f.hasCol name
  · obtain ⟨flags, hflags⟩ := mapOpt_eq_some_of
      (g := fun r => outOfRange lo hi (cellAt r name)) (l := f.rows)
      (fun r hr => outOfRange_isSome lo hi _ (h r hr))
    simp only [hcol, if_true, hflags, Option.map_some']
    refine ⟨_, rfl, ?_⟩
    by_cases hk : 0 < flags.count true <;> simp [hk]
  · simp only [Bool.not_eq_true] at hcol
    simp [hcol]

theorem dataQualityIssues_eq_some (cfg : VConfig) (f : Frame)
    (h : ∀ c ∈ ["inventory", "first_price", "moq", "leadtime_weeks"],
      ∀ r ∈ f.rows, isStrCell (cellAt r c) = false) :
    ∃ l, dataQualityIssues cfg f = some l ∧ ∀ i ∈ l, i.severity = "warning" := by
  obtain ⟨l1, h1, w1⟩ := rangeCheck_eq_some "inventory" cfg.min_inventory
    cfg.max_inventory f (h "inventory" (by simp))
  obtain ⟨l2, h2, w2⟩ := rangeCheck_eq_some "first_price" cfg.min_price
    cfg.max_price f (h "first_price" (by simp))
  obtain ⟨l3, h3, w3⟩ := rangeCheck_eq_some "moq" cfg.min_moq cfg.max_moq f
    (h "moq" (by simp))
  obtain ⟨l4, h4, w4⟩ := rangeCheck_eq_some "leadtime_weeks" cfg.min_leadtime_weeks
    cfg.max_leadtime_weeks f (h "leadtime_weeks" (by simp))
  refine ⟨l1 ++ l2 ++ l3 ++ l4, ?_, ?_⟩
  · simp [dataQualityIssues, h1, h2, h3, h4]
  · intro i hi
    simp only [List.mem_append] at hi
    rcases hi with ((hi | hi) | hi) | hi
    · exact w1 i hi
    · exact w2 i hi
    · exact w3 i hi
    · exact w4 i hi

theorem unavailableIssue_eq_some (f : Frame)
    (hlt : ∀ r ∈ f.rows, isStrCell (cellAt r "leadtime_weeks") = false) :
    ∃ l, unavailableIssue f = some l ∧ ∀ i ∈ l, i.severity = "info" := by
  unfold unavailableIssue
  by_cases hcol : (f.hasCol "inventory" && f.hasCol "leadtime_weeks") = true
  · obtain ⟨flags, hflags⟩ := mapOpt_eq_some_of (g := unavailRow) (l := f.rows)
      (fun r hr => by
        unfold unavailRow
        have := hlt r hr
        cases hc : cellAt r "leadtime_weeks" <;> simp_all [leadGt12, isStrCell])
    simp only [hcol, if_true, hflags, Option.map_some']
    refine ⟨_, rfl, ?_⟩
    by_cases hk : 0 < flags.count true <;> simp [hk]
  · simp only [Bool.not_eq_true] at hcol
    simp [hcol]

theorem missingPriceIssue_eq_some (f : Frame)
    (hinv : ∀ r ∈ f.rows, isStrCell (cellAt r "inventory") = false) :
    ∃ l, missingPriceIssue f = some l ∧ ∀ i ∈ l, i.severity = "warning" := by
  unfold missingPriceIssue
  by_cases hcol : (f.hasCol "inventory" && f.hasCol "first_price") = true
  · obtain ⟨flags, hflags⟩ := mapOpt_eq_some_of (g := missingPriceRow) (l := f.rows)
      (fun r hr => by
        unfold missingPriceRow
        have := hinv r hr
        cases hc : cellAt r "inventory" <;> simp_all [isStrCell])
    simp only [hcol, if_true, hflags, Option.map_some']
    refine ⟨_, rfl, ?_⟩
    by_cases hk : 0 < flags.count true <;> simp [hk]
  · simp only [Bool.not_eq_true] at hcol
    simp [hcol]

theorem businessRuleIssues_eq_some (f : Frame)
    (hinv : ∀ r ∈ f.rows, isStrCell (cellAt r "inventory") = false)
    (hlt : ∀ r ∈ f.rows, isStrCell (cellAt r "leadtime_weeks") = false) :
    ∃ l, businessRuleIssues f = some l ∧
      ∀ i ∈ l, i.severity = "info" ∨ i.severity = "warning" := by
  obtain ⟨l1, hl1, w1⟩ := unavailableIssue_eq_some f hlt
  obtain ⟨l2, hl2, w2⟩ := missingPriceIssue_eq_some f hinv
  refine ⟨l1 ++ l2, by simp [businessRuleIssues, hl1, hl2], ?_⟩
  intro i hi
  rcases List.mem_append.mp hi with hi | hi
  · exact Or.inl (w1 i hi)
  · exact Or.inr (w2 i hi)

theorem fieldCoverage_length (f : Frame) :
    (fieldCoverage f).length = f.cols.length := by
  simp [fieldCoverage]

theorem calculate_quality_score_eq_some (issues : List VIssue)
    (cov : List (String × Option ℚ)) (h : cov.length ≠ 0) :
    calculate_quality_score issues cov =
      some (max 0 (min 100 ((100 - (issues.map severityPenalty).sum) -
        match avgCoverage cov with
        | none => 0
        | some t => max 0 ((95 - t) * (1/2))))) := by
  unfold calculate_quality_score
  rw [if_neg h]

/-- Composition lemma: when every fallible stage of `validate_batch`
succeeds, the returned report is this record. -/
theorem validate_batch_eq (cfg : VConfig) (f : Frame) (qi bi : List VIssue)
    (sc : ℚ) (hq : dataQualityIssues cfg f = some qi)
    (hb : businessRuleIssues f = some bi)
    (hs : calculate_quality_score
      (validateStructure f ++ coverageIssues cfg.required_coverage (fieldCoverage f) ++
        qi ++ bi) (fieldCoverage f) = some sc) :
    validate_batch cfg f = some
      { is_valid := ((validateStructure f ++
            coverageIssues cfg.required_coverage (fieldCoverage f) ++ qi ++ bi).filter
            (fun i => i.severity = "critical")).length = 0
        total_rows := f.rows.length
        valid_rows := max 0 ((f.rows.length : ℤ) -
          ((((validateStructure f ++
              coverageIssues cfg.required_coverage (fieldCoverage f) ++ qi ++ bi).filter
              (fun i => i.severity = "critical")).map VIssue.affected).sum : ℤ))
        issues := validateStructure f ++
          coverageIssues cfg.required_coverage (fieldCoverage f) ++ qi ++ bi
        field_coverage := fieldCoverage f
        quality_score := sc } := by
  unfold validate_batch
  rw [hq]
  simp only [Option.bind_eq_bind, Option.some_bind]
  rw [hb]
  simp only [Option.bind_eq_bind, Option.some_bind]
  rw [hs]
  simp only [Option.bind_eq_bind, Option.some_bind]
  rfl

/-! ## Claim C7: the validator returns a report -/

/-- C7 (corrected). For every batch that has at least one column and no
string values in the four numerically compared fields, `validate_batch`
returns a ValidationResult, and for an empty such batch the report contains
the critical `empty_dataframe` issue. (The counterexample shows a
zero-column batch instead raises ZeroDivisionError.) -/
theorem c7_returns_report_amended (cfg : VConfig) (f : Frame)
    (hcols : f.cols ≠ [])
    (hnum : ∀ c ∈ ["inventory", "first_price", "moq", "leadtime_weeks"],
      ∀ r ∈ f.rows, isStrCell (cellAt r c) = false) :
    ∃ res, validate_batch cfg f = some res ∧
      (f.rows = [] →
        ({ itype := "empty_dataframe", severity := "critical", affected := 0 } : VIssue)
          ∈ res.issues) := by
  obtain ⟨qi, hq, _⟩ := dataQualityIssues_eq_some cfg f hnum
  obtain ⟨bi, hb, _⟩ := businessRuleIssues_eq_some f
    (hnum "inventory" (by simp)) (hnum "leadtime_weeks" (by simp))
  have hcov : (fieldCoverage f).length ≠ 0 := by
    rw [fieldCoverage_length]
    exact fun hz => hcols (List.length_eq_zero.mp hz)
  have hs := calculate_quality_score_eq_some
    (validateStructure f ++ coverageIssues cfg.required_coverage (fieldCoverage f) ++
      qi ++ bi) (fieldCoverage f) hcov
  refine ⟨_, validate_batch_eq cfg f qi bi _ hq hb hs, ?_⟩
  intro hemp
  have hmem : ({ itype := "empty_dataframe", severity := "critical", affected := 0 } : VIssue) ∈ validateStructure f := by
    unfold validateStructure
    rw [if_pos hemp]
    simp
  exact List.mem_append.mpr (Or.inl (List.mem_append.mpr (Or.inl
    (List.mem_append.mpr (Or.inl hmem)))))

/-- C7 witness: the empty batch that still has a `pn` column satisfies the
hypotheses and gets a report. -/
theorem c7_returns_report_amended_witness :
    ((⟨["pn"], []⟩ : Frame).cols ≠ [] ∧
      ∀ c ∈ ["inventory", "first_price", "moq", "leadtime_weeks"],
        ∀ r ∈ (⟨["pn"], []⟩ : Frame).rows, isStrCell (cellAt r c) = false) ∧
    (validate_batch {} ⟨["pn"], []⟩).isSome := by
  obtain ⟨res, hres, -⟩ := c7_returns_report_amended {} ⟨["pn"], []⟩
    (by decide) (by decide)
  exact ⟨⟨by decide, by decide⟩, by rw [hres]; rfl⟩

/-! ## Claim C8: the quality-score formula -/

/-- The number of issues of one severity, as a rational. -/
def cntSev (issues : List VIssue) (s : String) : ℚ :=
  ((issues.filter (fun i => i.severity = s)).length : ℚ)

/-- Every issue the validator constructs carries one of the three scored
severities. -/
def sevOk (i : VIssue) : Prop :=
  i.severity = "critical" ∨ i.severity = "warning" ∨ i.severity = "info"

theorem validateStructure_sevOk (f : Frame) :
    ∀ i ∈ validateStructure f, i.severity = "critical" := by
  intro i hi
  unfold validateStructure at hi
  rcases List.mem_append.mp hi with hi | hi
  · by_cases hc : f.rows = []
    · rw [if_pos hc] at hi
      simp only [List.mem_singleton] at hi
      rw [hi]
    · rw [if_neg hc] at hi
      simp at hi
  · by_cases hc : ["pn", "inventory"].any (fun c => !(f.hasCol c)) = true
    · rw [if_pos hc] at hi
      simp only [List.mem_singleton] at hi
      rw [hi]
    · rw [if_neg hc] at hi
      simp at hi

theorem coverageIssues_sevOk (req : List (String × ℚ))
    (cov : List (String × Option ℚ)) :
    ∀ i ∈ coverageIssues req cov, i.severity = "warning" := by
  intro i hi
  unfold coverageIssues at hi
  obtain ⟨fr, _, hmap⟩ := List.mem_filterMap.mp hi
  cases hlk : cov.lookup fr.1 with
  | none => rw [hlk] at hmap; simp at hmap
  | some ov =>
    cases ov with
    | none => rw [hlk] at hmap; simp at hmap
    | some actual =>
      rw [hlk] at hmap
      by_cases hlt : actual < fr.2
      · simp only [hlt, if_true, Option.some.injEq] at hmap
        rw [← hmap]
      · simp [hlt] at hmap

theorem rangeCheck_severity {name : String} {lo hi : ℚ} {f : Frame}
    {l : List VIssue} (h : rangeCheck name lo hi f = some l) :
    ∀ i ∈ l, i.severity = "warning" := by
  unfold rangeCheck at h
  by_cases hcol : f.hasCol name
  · simp only [hcol, if_true, Option.map_eq_some'] at h
    obtain ⟨flags, _, hl⟩ := h
    rw [← hl]
    by_cases hk : 0 < flags.count true <;> simp [hk]
  · simp only [hcol, Bool.false_eq_true, if_false, Option.some.injEq] at h
    rw [← h]
    simp

theorem dataQualityIssues_severity {cfg : VConfig} {f : Frame}
    {l : List VIssue} (h : dataQualityIssues cfg f = some l) :
    ∀ i ∈ l, i.severity = "warning" := by
  unfold dataQualityIssues at h
  simp only [Option.bind_eq_bind, Option.bind_eq_some, Option.pure_def,
    Option.some.injEq] at h
  obtain ⟨l1, h1, l2, h2, l3, h3, l4, h4, hl⟩ := h
  intro i hi
  rw [← hl] at hi
  simp only [List.mem_append] at hi
  rcases hi with ((hi | hi) | hi) | hi
  · exact rangeCheck_severity h1 i hi
  · exact rangeCheck_severity h2 i hi
  · exact rangeCheck_severity h3 i hi
  · exact rangeCheck_severity h4 i hi

theorem unavailableIssue_severity {f : Frame} {l : List VIssue}
    (h : unavailableIssue f = some l) : ∀ i ∈ l, i.severity = "info" := by
  unfold unavailableIssue at h
  by_cases hcol : (f.hasCol "inventory" && f.hasCol "leadtime_weeks") = true
  · simp only [hcol, if_true, Option.map_eq_some'] at h
    obtain ⟨flags, _, hl⟩ := h
    rw [← hl]
    by_cases hk : 0 < flags.count true <;> simp [hk]
  · simp only [hcol, Bool.false_eq_true, if_false, Option.some.injEq] at h
    rw [← h]
    simp

theorem missingPriceIssue_severity {f : Frame} {l : List VIssue}
    (h : missingPriceIssue f = some l) : ∀ i ∈ l, i.severity = "warning" := by
  unfold missingPriceIssue at h
  by_cases hcol : (f.hasCol "inventory" && f.hasCol "first_price") = true
  · simp only [hcol, if_true, Option.map_eq_some'] at h
    obtain ⟨flags, _, hl⟩ := h
    rw [← hl]
    by_cases hk : 0 < flags.count true <;> simp [hk]
  · simp only [hcol, Bool.false_eq_true, if_false, Option.some.injEq] at h
    rw [← h]
    simp

theorem businessRuleIssues_severity {f : Frame} {l : List VIssue}
    (h : businessRuleIssues f = some l) :
    ∀ i ∈ l, i.severity = "info" ∨ i.severity = "warning" := by
  unfold businessRuleIssues at h
  simp only [Option.bind_eq_bind, Option.bind_eq_some, Option.pure_def,
    Option.some.injEq] at h
  obtain ⟨l1, h1, l2, h2, hl⟩ := h
  intro i hi
  rw [← hl] at hi
  rcases List.mem_append.mp hi with hi | hi
  · exact Or.inl (unavailableIssue_severity h1 i hi)
  · exact Or.inr (missingPriceIssue_severity h2 i hi)

theorem penalty_sum (issues : List VIssue) (h : ∀ i ∈ issues, sevOk i) :
    (issues.map severityPenalty).sum =
      25 * cntSev issues "critical" + 10 * cntSev issues "warning" +
        2 * cntSev issues "info" := by
  induction issues with
  | nil => simp [cntSev]
  | cons a t ih =>
    have ha := h a (by simp)
    have ht := ih (fun x hx => h x (by simp [hx]))
    simp only [List.map_cons, List.sum_cons, ht]
    rcases ha with h1 | h1 | h1
    · have hpen : severityPenalty a = 25 := by simp [severityPenalty, h1]
      have hcc : cntSev (a :: t) "critical" = cntSev t "critical" + 1 := by
        simp [cntSev, List.filter_cons, h1]
      have hcw : cntSev (a :: t) "warning" = cntSev t "warning" := by
        simp [cntSev, List.filter_cons, h1]
      have hci : cntSev (a :: t) "info" = cntSev t "info" := by
        simp [cntSev, List.filter_cons, h1]
      rw [hpen, hcc, hcw, hci]
      ring
    · have hpen : severityPenalty a = 10 := by simp [severityPenalty, h1]
      have hcc : cntSev (a :: t) "critical" = cntSev t "critical" := by
        simp [cntSev, List.filter_cons, h1]
      have hcw : cntSev (a :: t) "warning" = cntSev t "warning" + 1 := by
        simp [cntSev, List.filter_cons, h1]
      have hci : cntSev (a :: t) "info" = cntSev t "info" := by
        simp [cntSev, List.filter_cons, h1]
      rw [hpen, hcc, hcw, hci]
      ring
    · have hpen : severityPenalty a = 2 := by simp [severityPenalty, h1]
      have hcc : cntSev (a :: t) "critical" = cntSev t "critical" := by
        simp [cntSev, List.filter_cons, h1]
      have hcw : cntSev (a :: t) "warning" = cntSev t "warning" := by
        simp [cntSev, List.filter_cons, h1]
      have hci : cntSev (a :: t) "info" = cntSev t "info" + 1 := by
        simp [cntSev, List.filter_cons, h1]
      rw [hpen, hcc, hcw, hci]
      ring

/-- Inversion of `validate_batch`: a returned report decomposes into the
four issue groups, the field coverage, and the quality score equation. -/
theorem validate_batch_inv (cfg : VConfig) (f : Frame) (res : ValidationResult)
    (h : validate_batch cfg f = some res) :
    ∃ qi bi,
      dataQualityIssues cfg f = some qi ∧
      businessRuleIssues f = some bi ∧
      res.issues = validateStructure f ++
        coverageIssues cfg.required_coverage (fieldCoverage f) ++ qi ++ bi ∧
      res.field_coverage = fieldCoverage f ∧
      calculate_quality_score res.issues (fieldCoverage f) = some res.quality_score ∧
      (res.is_valid =
        ((res.issues.filter (fun i => i.severity = "critical")).length = 0 : Bool)) := by
  unfold validate_batch at h
  cases hq : dataQualityIssues cfg f with
  | none => rw [hq] at h; simp at h
  | some qi =>
    rw [hq] at h
    simp only [Option.bind_eq_bind, Option.some_bind] at h
    cases hb : businessRuleIssues f with
    | none => rw [hb] at h; simp at h
    | some bi =>
      rw [hb] at h
      simp only [Option.some_bind] at h
      cases hs : calculate_quality_score
          (validateStructure f ++ coverageIssues cfg.required_coverage (fieldCoverage f) ++
            qi ++ bi) (fieldCoverage f) with
      | none => rw [hs] at h; simp at h
      | some sc =>
        rw [hs] at h
        simp only [Option.some_bind, Option.pure_def, Option.some.injEq] at h
        refine ⟨qi, bi, rfl, rfl, ?_, ?_, ?_, ?_⟩
        · rw [← h]
        · rw [← h]
        · rw [← h]
          exact hs
        · rw [← h]

/-- C8 (confirmed). The validator's quality score equals 100 minus 25 per
critical issue, 10 per warning, 2 per info, minus the coverage penalty
`max(0, (95 - average coverage) * 0.5)`, clamped into [0, 100]; and a batch
whose `pn` column is missing yields `is_valid = false` and a quality score
of at most 75. -/
theorem c8_quality_score_formula (cfg : VConfig) (f : Frame)
    (res : ValidationResult) (h : validate_batch cfg f = some res) :
    res.quality_score = max 0 (min 100
      (100 - 25 * cntSev res.issues "critical" - 10 * cntSev res.issues "warning" -
        2 * cntSev res.issues "info" -
        (match avgCoverage res.field_coverage with
         | none => 0
         | some t => max 0 ((95 - t) * (1/2))))) ∧
    ("pn" ∉ f.cols → res.is_valid = false ∧ res.quality_score ≤ 75) := by
  obtain ⟨qi, bi, hq, hb, hiss, hcov, hqs, hvalid⟩ := validate_batch_inv cfg f res h
  have hall : ∀ i ∈ res.issues, sevOk i := by
    intro i hi
    rw [hiss] at hi
    simp only [List.mem_append] at hi
    rcases hi with ((hi | hi) | hi) | hi
    · exact Or.inl (validateStructure_sevOk f i hi)
    · exact Or.inr (Or.inl (coverageIssues_sevOk _ _ i hi))
    · exact Or.inr (Or.inl (dataQualityIssues_severity hq i hi))
    · rcases businessRuleIssues_severity hb i hi with h' | h'
      · exact Or.inr (Or.inr h')
      · exact Or.inr (Or.inl h')
  have hsum := penalty_sum res.issues hall
  have hclen : (fieldCoverage f).length ≠ 0 := by
    intro hz
    unfold calculate_quality_score at hqs
    rw [if_pos hz] at hqs
    simp at hqs
  have hqe : res.quality_score = max 0 (min 100
      ((100 - (res.issues.map severityPenalty).sum) -
        (match avgCoverage (fieldCoverage f) with
         | none => 0
         | some t => max 0 ((95 - t) * (1/2))))) := by
    rw [calculate_quality_score_eq_some res.issues (fieldCoverage f) hclen] at hqs
    exact (Option.some.inj hqs).symm
  constructor
  · rw [hcov, hqe, hsum]
    congr 2
    ring
  · intro hpn
    have hpnc : f.hasCol "pn" = false := by
      cases hcl : f.hasCol "pn"
      · rfl
      · exact absurd ((hasCol_true_iff f "pn").mp hcl) hpn
    have hmi : ({ itype := "missing_columns", severity := "critical", affected := f.rows.length } : VIssue) ∈ res.issues := by
      rw [hiss]
      refine List.mem_append.mpr (Or.inl (List.mem_append.mpr (Or.inl
        (List.mem_append.mpr (Or.inl ?_)))))
      unfold validateStructure
      refine List.mem_append.mpr (Or.inr ?_)
      rw [if_pos (by simp [hpnc])]
      simp
    have hmf : ({ itype := "missing_columns", severity := "critical", affected := f.rows.length } : VIssue) ∈
        res.issues.filter (fun i => i.severity = "critical") :=
      List.mem_filter.mpr ⟨hmi, by simp⟩
    have hlenpos : 0 < (res.issues.filter (fun i => i.severity = "critical")).length :=
      List.length_pos.mpr (List.ne_nil_of_mem hmf)
    have hcrit1 : 1 ≤ cntSev res.issues "critical" := by
      unfold cntSev
      exact_mod_cast hlenpos
    constructor
    · rw [hvalid]
      exact decide_eq_false (by omega)
    · have hw0 : 0 ≤ cntSev res.issues "warning" := Nat.cast_nonneg _
      have hi0 : 0 ≤ cntSev res.issues "info" := Nat.cast_nonneg _
      rw [hqe, hsum]
      refine max_le (by norm_num) (le_trans (min_le_right _ _) ?_)
      have hstep : ∀ p : ℚ, 0 ≤ p →
          100 - (25 * cntSev res.issues "critical" + 10 * cntSev res.issues "warning" +
            2 * cntSev res.issues "info") - p ≤ 75 := by
        intro p hp
        linarith [hcrit1, hw0, hi0]
      cases havg : avgCoverage (fieldCoverage f) with
      | none => exact hstep 0 (le_refl 0)
      | some t => exact hstep _ (le_max_left 0 _)

/-- The C8 witness batch: one numeric record, `pn` column absent. -/
def df8 : Frame :=
  { cols := ["inventory"]
    rows := [[("inventory", Cell.num 5)]] }

/-- The report `validate_batch` returns for `df8`. -/
def res8 : ValidationResult :=
  { is_valid := false
    total_rows := 1
    valid_rows := 0
    issues := [{ itype := "missing_columns", severity := "critical", affected := 1 }]
    field_coverage := [("inventory", some 100)]
    quality_score := 75 }

/-- C8 witness: the batch missing `pn` validates to an invalid report with
quality score exactly 75 (one critical deduction, no coverage penalty). -/
theorem c8_quality_score_formula_witness :
    validate_batch {} df8 = some res8 ∧ "pn" ∉ df8.cols ∧
    res8.is_valid = false ∧ res8.quality_score ≤ 75 := by
  have h : validate_batch {} df8 = some res8 := by
    with_unfolding_all decide
  have hm := (c8_quality_score_formula {} df8 res8 h).2 (by decide)
  exact ⟨h, by decide, hm.1, hm.2⟩

/-! ## Series max/min helpers -/

/-- Every element of a list is equal — the "no discriminating signal" case. -/
def allEqL (l : List α) : Prop := ∀ x ∈ l, ∀ y ∈ l, x = y

theorem foldl_max_all_eq (t : List ℚ) (a : ℚ) (h : ∀ x ∈ t, x = a) :
    t.foldl max a = a := by
  induction t with
  | nil => rfl
  | cons b t ih =>
    have hb : b = a := h b (by simp)
    have : max a b = a := by simp [hb]
    simpa [List.foldl, this] using ih (fun x hx => h x (by simp [hx]))

theorem foldl_min_all_eq (t : List ℚ) (a : ℚ) (h : ∀ x ∈ t, x = a) :
    t.foldl min a = a := by
  induction t with
  | nil => rfl
  | cons b t ih =>
    have hb : b = a := h b (by simp)
    have : min a b = a := by simp [hb]
    simpa [List.foldl, this] using ih (fun x hx => h x (by simp [hx]))

theorem init_le_foldl_max (t : List ℚ) (a : ℚ) : a ≤ t.foldl max a := by
  induction t generalizing a with
  | nil => exact le_refl a
  | cons b t ih => exact le_trans (le_max_left a b) (ih (max a b))

theorem foldl_min_le_init (t : List ℚ) (a : ℚ) : t.foldl min a ≤ a := by
  induction t generalizing a with
  | nil => exact le_refl a
  | cons b t ih => exact le_trans (ih (min a b)) (min_le_left a b)

theorem le_foldl_max (t : List ℚ) (a x : ℚ) (h : x = a ∨ x ∈ t) :
    x ≤ t.foldl max a := by
  induction t generalizing a with
  | nil => simp at h; simp [h]
  | cons b t ih =>
    simp only [List.foldl]
    rcases h with rfl | hx
    · exact le_trans (le_max_left x b) (init_le_foldl_max t (max x b))
    · rcases List.mem_cons.mp hx with rfl | hx
      · exact le_trans (le_max_right a x) (init_le_foldl_max t (max a x))
      · exact ih (max a b) (Or.inr hx)

theorem foldl_min_le (t : List ℚ) (a x : ℚ) (h : x = a ∨ x ∈ t) :
    t.foldl min a ≤ x := by
  induction t generalizing a with
  | nil => simp at h; simp [h]
  | cons b t ih =>
    simp only [List.foldl]
    rcases h with rfl | hx
    · exact le_trans (foldl_min_le_init t (min x b)) (min_le_left x b)
    · rcases List.mem_cons.mp hx with rfl | hx
      · exact le_trans (foldl_min_le_init t (min a x)) (min_le_right a x)
      · exact ih (min a b) (Or.inr hx)

theorem allEq_of_max_eq_min (l : List ℚ) (h : seriesMax l = seriesMin l) :
    allEqL l := by
  intro x hx y hy
  cases l with
  | nil => simp at hx
  | cons h0 t =>
    have hx' : x ≤ seriesMax (h0 :: t) :=
      le_foldl_max t h0 x (by simpa using List.mem_cons.mp hx)
    have hx'' : seriesMin (h0 :: t) ≤ x :=
      foldl_min_le t h0 x (by simpa using List.mem_cons.mp hx)
    have hy' : y ≤ seriesMax (h0 :: t) :=
      le_foldl_max t h0 y (by simpa using List.mem_cons.mp hy)
    have hy'' : seriesMin (h0 :: t) ≤ y :=
      foldl_min_le t h0 y (by simpa using List.mem_cons.mp hy)
    have hxe : x = seriesMax (h0 :: t) := le_antisymm hx' (h ▸ hx'')
    have hye : y = seriesMax (h0 :: t) := le_antisymm hy' (h ▸ hy'')
    rw [hxe, hye]

/-! ## Claim C4: all boosted scores equal gives the constant midpoint 50 -/

/-- C4 (confirmed). For every non-empty batch whose boosted scores are all
equal — the single-record batch and the all-zero batch included — the
normaliser `_normalize_scores` assigns every record the priority score 50. -/
theorem c4_all_equal_midpoint (s : List ℚ) (h1 : s ≠ [])
    (h2 : allEqL s) : normalize_scores s = List.replicate s.length 50 := by
  match s, h1 with
  | a :: t, _ =>
    have hall : ∀ x ∈ t, x = a := fun x hx => h2 x (by simp [hx]) a (by simp)
    have hmax : seriesMax (a :: t) = a := foldl_max_all_eq t a hall
    have hmin : seriesMin (a :: t) = a := foldl_min_all_eq t a hall
    simp [normalize_scores, hmax, hmin]

/-- C4 witness: the two-element constant batch [7, 7] normalises to [50, 50]. -/
theorem c4_all_equal_midpoint_witness :
    ([(7 : ℚ), 7] ≠ [] ∧ allEqL [(7 : ℚ), 7]) ∧
      normalize_scores [7, 7] = List.replicate 2 50 := by
  refine ⟨⟨by simp, ?_⟩, c4_all_equal_midpoint [7, 7] (by simp) ?_⟩ <;>
    · intro x hx y hy
      simp only [List.mem_cons, List.not_mem_nil, or_false] at hx hy
      rcases hx with rfl | rfl <;> rcases hy with rfl | rfl <;> rfl

/-! ## Claim C10: missing gate columns mean no gate -/

/-- C10 (confirmed). When the dataframe lacks `inventory` or lacks
`leadtime_weeks`, `_calculate_base_score` returns exactly the weighted sums:
the availability gate zeroes nothing, whatever the records contain. -/
theorem c10_gate_skipped (weights : List (String × ℚ)) (f : Frame)
    (h : (f.hasCol "inventory" && f.hasCol "leadtime_weeks") = false) :
    calculate_base_score weights f = weightedSums weights f := by
  unfold calculate_base_score
  cases hw : weightedSums weights f with
  | none => rfl
  | some sums => simp [h]

/-- C10 witness: a batch with an `inventory` column but no `leadtime_weeks`
column, whose only record has `inventory = 0` (it would be gated if a long
lead time were present), keeps its weighted-sum base score 7. -/
theorem c10_gate_skipped_witness :
    ((Frame.hasCol { cols := ["inventory", "score"]
                     rows := [[("inventory", Cell.num 0), ("score", Cell.num 7)]] } "inventory" &&
      Frame.hasCol { cols := ["inventory", "score"]
                     rows := [[("inventory", Cell.num 0), ("score", Cell.num 7)]] } "leadtime_weeks") = false) ∧
    calculate_base_score [("score", 1)]
        { cols := ["inventory", "score"]
          rows := [[("inventory", Cell.num 0), ("score", Cell.num 7)]] } = some [7] := by
  refine ⟨by decide, ?_⟩
  rw [c10_gate_skipped [("score", 1)] _ (by decide)]
  with_unfolding_all decide

/-! ## Concrete batches used by the counterexamples and witnesses.
All of them use a feature configuration with empty transform lists, so the
abstract log1p parameter is never applied; it is instantiated with the
identity. -/

/-- Stand-in instantiation for the unused log1p parameter. -/
def idQ : ℚ → ℚ := fun q => q

/-- A configuration whose only weight is on the raw `inventory` column. -/
def cfgInv : Config :=
  { weights := [("inventory", 1)]
    features := { log_transforms := [], inverse_transforms := [] } }

/-- A single-record batch whose record is gated: zero inventory, 16-week
lead time. -/
def dfGatedOnly : Frame :=
  { cols := ["inventory", "leadtime_weeks"]
    rows := [[("inventory", Cell.num 0), ("leadtime_weeks", Cell.num 16)]] }

/-- A configuration with a single weighted synthetic column `x`. -/
def cfgX : Config :=
  { weights := [("x", 1)]
    features := { log_transforms := [], inverse_transforms := [] } }

/-- A batch whose weighted sums are -5 and 3: one negative boosted score. -/
def dfNeg : Frame :=
  { cols := ["pn", "x"]
    rows := [[("pn", Cell.str "A"), ("x", Cell.num (-5))],
             [("pn", Cell.str "B"), ("x", Cell.num 3)]] }

/-- A configuration with no weights at all. -/
def cfgNone : Config :=
  { weights := []
    features := { log_transforms := [], inverse_transforms := [] } }

/-- Two distinct records that tie at every score. -/
def dfTie : Frame :=
  { cols := ["pn"]
    rows := [[("pn", Cell.str "A")], [("pn", Cell.str "B")]] }

/-! ## Claim C1: the availability gate and the scored output -/

/-- C1 counterexample (claim as stated is false). A batch consisting only of
one unobtainable record — `inventory = 0`, `leadtime_weeks = 16 > 12`, both
columns present — receives `base_score = 0` but `priority_score = 50`, not 0:
all boosted scores of the batch are equal, so `_normalize_scores` takes the
constant-midpoint branch. -/
theorem c1_gate_counterexample :
    (calculate_scores idQ cfgInv true dfGatedOnly).map
        (fun o => o.rows.map (fun r => (cellAt r "base_score", cellAt r "priority_score"))) =
      some [(Cell.num 0, Cell.num 50)] := by
  with_unfolding_all decide

/-! ## Claim C2: normalized scores and the [0, 100] range -/

/-- C2 (code bug). With normalization enabled, a non-empty batch whose
weighted sums are -5 and 3 is scored to priority scores 1 and -5:
`_normalize_scores` rescales only the scores strictly greater than 0 and
passes the negative score through unchanged, so the output leaves [0, 100]
(and [1, 100]), contradicting the function's stated 0-100 contract. -/
theorem c2_negative_passthrough :
    (calculate_scores idQ cfgX true dfNeg).map
        (fun o => o.rows.map (fun r => cellAt r "priority_score")) =
      some [Cell.num 1, Cell.num (-5)] ∧ (-5 : ℚ) < 0 := by
  constructor
  · with_unfolding_all decide
  · norm_num

/-! ## Claim C5: output order -/

/-- C5 counterexample (stable ties are false). Two records that tie at
priority 50 come out in the order B, A — the reverse of their input order
A, B: pandas reverses the ascending argsort to sort descending, which
reverses ties. -/
theorem c5_stable_tie_counterexample :
    dfTie.rows.map (fun r => cellAt r "pn") = [Cell.str "A", Cell.str "B"] ∧
    (calculate_scores idQ cfgNone true dfTie).map
        (fun o => o.rows.map (fun r => (cellAt r "pn", cellAt r "priority_score"))) =
      some [(Cell.str "B", Cell.num 50), (Cell.str "A", Cell.num 50)] := by
  constructor
  · with_unfolding_all decide
  · with_unfolding_all decide

/-! ## Claim C6: empty batch schema -/

/-- C6 counterexample (claim as stated is false). Scoring the empty batch
returns zero rows with columns `priority_score`, `score_percentile` and
`base_score` — the expected `boosted_score` column is absent from the
output schema. -/
theorem c6_schema_counterexample :
    calculate_scores idQ cfgNone true { cols := [], rows := [] } =
      some { cols := ["priority_score", "score_percentile", "base_score"], rows := [] } ∧
    "boosted_score" ∉
      (emptyResult { cols := [], rows := [] }).cols := by
  constructor
  · with_unfolding_all decide
  · with_unfolding_all decide

/-- C6 (corrected). For every empty input batch, `calculate_scores` returns
the early-exit copy: zero rows, with `priority_score`, `score_percentile`
and `base_score` columns present, and with a `boosted_score` column only if
the input batch already had one. -/
theorem c6_empty_schema_amended (log1p : ℚ → ℚ) (cfg : Config)
    (normalize : Bool) (f : Frame) (h : f.rows = []) :
    calculate_scores log1p cfg normalize f = some (emptyResult f) ∧
    (emptyResult f).rows = [] ∧
    "priority_score" ∈ (emptyResult f).cols ∧
    "score_percentile" ∈ (emptyResult f).cols ∧
    "base_score" ∈ (emptyResult f).cols ∧
    ("boosted_score" ∈ (emptyResult f).cols ↔ "boosted_score" ∈ f.cols) := by
  refine ⟨by simp [calculate_scores, h], ?_, ?_, ?_, ?_, ?_⟩
  · simp [emptyResult, Frame.setCol, h]
  · have h1 : "priority_score" ∈ (f.setCol "priority_score" []).cols :=
      (mem_cols_setCol f "priority_score" "priority_score" []).mpr (Or.inl rfl)
    have h2 := (mem_cols_setCol (f.setCol "priority_score" [])
      "score_percentile" "priority_score" []).mpr (Or.inr h1)
    exact (mem_cols_setCol ((f.setCol "priority_score" []).setCol "score_percentile" [])
      "base_score" "priority_score" []).mpr (Or.inr h2)
  · have h1 : "score_percentile" ∈
        ((f.setCol "priority_score" []).setCol "score_percentile" []).cols :=
      (mem_cols_setCol (f.setCol "priority_score" [])
        "score_percentile" "score_percentile" []).mpr (Or.inl rfl)
    exact (mem_cols_setCol ((f.setCol "priority_score" []).setCol "score_percentile" [])
      "base_score" "score_percentile" []).mpr (Or.inr h1)
  · exact (mem_cols_setCol ((f.setCol "priority_score" []).setCol "score_percentile" [])
      "base_score" "base_score" []).mpr (Or.inl rfl)
  · simp only [emptyResult, mem_cols_setCol]
    constructor
    · rintro (h' | h' | h' | h') <;> first
        | (exact absurd h' (by decide))
        | exact h'
    · intro h'
      exact Or.inr (Or.inr (Or.inr h'))

/-- C6 witness: the amended statement evaluated at the empty batch that also
starts with no columns. -/
theorem c6_empty_schema_amended_witness :
    ((⟨[], []⟩ : Frame).rows = []) ∧
    calculate_scores idQ cfgNone true ⟨[], []⟩ = some (emptyResult ⟨[], []⟩) ∧
    "priority_score" ∈ (emptyResult (⟨[], []⟩ : Frame)).cols ∧
    "base_score" ∈ (emptyResult (⟨[], []⟩ : Frame)).cols := by
  have h := c6_empty_schema_amended idQ cfgNone true ⟨[], []⟩ rfl
  exact ⟨rfl, h.1, h.2.2.1, h.2.2.2.2.1⟩

/-! ## Claim C7: the validator never raises -/

/-- C7 counterexample (claim as stated is false). Validating
`pd.DataFrame()` — the empty batch with no columns — raises
ZeroDivisionError inside `_calculate_quality_score`
(`sum(...) / len(field_coverage)` with no fields), instead of returning a
report. -/
theorem c7_zero_column_counterexample :
    validate_batch {} { cols := [], rows := [] } = none := by
  with_unfolding_all decide

/-! ## Claim C9: boosts and monotonicity -/

/-- The boost-stage frame of the C9 counterexample: an immediately shipping
record with a negative base score. -/
def fNegBase : Frame :=
  { cols := ["leadtime_weeks", "base_score"]
    rows := [[("leadtime_weeks", Cell.num 0), ("base_score", Cell.num (-10))]] }

/-- C9 counterexample (claim as stated is false). A record with
`leadtime_weeks = 0` and base score -10 matches `immediate_ship`, and the
1.15 multiplier yields boosted score -11.5 < -10: with a negative base
score the boost decreases the score. -/
theorem c9_boost_decrease_counterexample :
    apply_boosts fNegBase = [-23/2] ∧
    fNegBase.colQ "base_score" = [-10] ∧
    (-23/2 : ℚ) < -10 := by
  refine ⟨by with_unfolding_all decide, by with_unfolding_all decide, by norm_num⟩

/-! ## The boost fold: each record's score is its base times one factor per
rule -/

/-- The factor a single rule contributes to record `i`: the multiplier when
the rule's mask evaluated and holds at `i`, else 1 (also 1 when the rule was
skipped by the exception handler). -/
def ruleFactor (f : Frame) (i : ℕ) (rule : RuleId × ℚ) : ℚ :=
  match ruleMask rule.1 f with
  | none => 1
  | some mask => if mask.getD i false then rule.2 else 1

/-- Whether rule `id` matched record `i` (false for a skipped rule). -/
def ruleMatches (id : RuleId) (f : Frame) (i : ℕ) : Bool :=
  ((ruleMask id f).getD []).getD i false

theorem ruleMask_length {id : RuleId} {f : Frame} {m : List Bool}
    (h : ruleMask id f = some m) : m.length = f.rows.length := by
  cases id <;> exact mapOpt_length h

theorem boostStep_length {f : Frame} {acc : List ℚ} (rule : RuleId × ℚ)
    (hacc : acc.length = f.rows.length) :
    (boostStep f acc rule).length = acc.length := by
  unfold boostStep
  cases hm : ruleMask rule.1 f with
  | none => rfl
  | some mask =>
    have hml : mask.length = f.rows.length := ruleMask_length hm
    by_cases hc : true ∈ mask
    · simp [hc, List.length_zipWith, hml, hacc]
    · simp [hc]

theorem getD_eq_getElem' {l : List α} {i : ℕ} (d : α) (h : i < l.length) :
    l.getD i d = l[i] := by
  simp [List.getD_eq_getElem?_getD, List.getElem?_eq_getElem h]

theorem boostStep_getD {f : Frame} {acc : List ℚ} (rule : RuleId × ℚ) (i : ℕ)
    (hacc : acc.length = f.rows.length) (hi : i < f.rows.length) :
    (boostStep f acc rule).getD i 0 = acc.getD i 0 * ruleFactor f i rule := by
  unfold boostStep ruleFactor
  cases hm : ruleMask rule.1 f with
  | none => simp
  | some mask =>
    dsimp only
    have hml : mask.length = f.rows.length := ruleMask_length hm
    have him : i < mask.length := hml ▸ hi
    have hia : i < acc.length := hacc ▸ hi
    by_cases hc : true ∈ mask
    · have hiz : i < (List.zipWith (fun b m => if m then b * rule.2 else b) acc mask).length := by
        rw [List.length_zipWith, hacc, hml]
        omega
      rw [if_pos (List.elem_eq_true_of_mem hc)]
      rw [getD_eq_getElem' 0 hiz, List.getElem_zipWith,
        getD_eq_getElem' 0 hia, getD_eq_getElem' false him]
      by_cases hv : mask[i] <;> simp [hv]
    · have hmi : mask.getD i false = false := by
        rw [getD_eq_getElem' false him]
        by_cases hv : mask[i]
        · exact absurd (hv ▸ List.getElem_mem him) hc
        · simpa using hv
      rw [List.getD_eq_getElem?_getD] at hmi
      rw [if_neg (by simp [hc])]
      simp [hmi]

theorem boost_foldl_getD {f : Frame} (rules : List (RuleId × ℚ)) (acc : List ℚ)
    (i : ℕ) (hacc : acc.length = f.rows.length) (hi : i < f.rows.length) :
    (rules.foldl (boostStep f) acc).getD i 0 =
      acc.getD i 0 * (rules.map (ruleFactor f i)).prod := by
  induction rules generalizing acc with
  | nil => simp
  | cons r rest ih =>
    have hlen : (boostStep f acc r).length = acc.length := boostStep_length r hacc
    calc ((r :: rest).foldl (boostStep f) acc).getD i 0
        = (rest.foldl (boostStep f) (boostStep f acc r)).getD i 0 := rfl
      _ = (boostStep f acc r).getD i 0 * (rest.map (ruleFactor f i)).prod :=
          ih (boostStep f acc r) (hlen.trans hacc)
      _ = acc.getD i 0 * ruleFactor f i r * (rest.map (ruleFactor f i)).prod := by
          rw [boostStep_getD r i hacc hi]
      _ = acc.getD i 0 * ((r :: rest).map (ruleFactor f i)).prod := by
          simp [mul_assoc]

theorem apply_boosts_getD {f : Frame} (i : ℕ) (hi : i < f.rows.length) :
    (apply_boosts f).getD i 0 =
      (f.colQ "base_score").getD i 0 * (boostRules.map (ruleFactor f i)).prod :=
  boost_foldl_getD boostRules (f.colQ "base_score") i
    (by simp [Frame.colQ]) hi

theorem one_le_listProd (l : List ℚ) (h : ∀ x ∈ l, (1 : ℚ) ≤ x) :
    1 ≤ l.prod := by
  induction l with
  | nil => simp
  | cons a t ih =>
    simp only [List.prod_cons]
    have ha := h a (by simp)
    have ht := ih (fun x hx => h x (by simp [hx]))
    nlinarith

theorem prod_ite_eq_prod_filter (l : List (RuleId × ℚ)) (p : RuleId × ℚ → Bool) :
    (l.map (fun r => if p r then r.2 else 1)).prod =
      ((l.filter p).map (fun r => r.2)).prod := by
  induction l with
  | nil => rfl
  | cons a t ih =>
    by_cases hp : p a <;> simp [List.filter_cons, hp, ih]

/-! ## Columns that a pipeline stage does not write pass through unchanged -/

/-- Column `c` is identical in `f` and `f'`: same presence flag, same row
count, same cell in every row position. -/
def Untouched (f f' : Frame) (c : String) : Prop :=
  f'.hasCol c = f.hasCol c ∧
  f'.rows.length = f.rows.length ∧
  ∀ i, cellAt (f'.rows.getD i []) c = cellAt (f.rows.getD i []) c

theorem untouched_refl (f : Frame) (c : String) : Untouched f f c :=
  ⟨rfl, rfl, fun _ => rfl⟩

theorem untouched_trans {f g h : Frame} {c : String}
    (h1 : Untouched f g c) (h2 : Untouched g h c) : Untouched f h c :=
  ⟨h2.1.trans h1.1, h2.2.1.trans h1.2.1, fun i => (h2.2.2 i).trans (h1.2.2 i)⟩

theorem hasCol_setCol_ne (f : Frame) (c c' : String) (vals : List Cell)
    (hne : c' ≠ c) : (f.setCol c' vals).hasCol c = f.hasCol c := by
  have hiff : ((f.setCol c' vals).hasCol c = true) ↔ (f.hasCol c = true) := by
    rw [hasCol_true_iff, hasCol_true_iff, mem_cols_setCol]
    constructor
    · rintro (rfl | h)
      · exact absurd rfl hne
      · exact h
    · exact fun h => Or.inr h
  cases h1 : (f.setCol c' vals).hasCol c <;> cases h2 : f.hasCol c <;> simp_all

theorem cellAt_setCol_ne (f : Frame) (c c' : String) (vals : List Cell)
    (hlen : vals.length = f.rows.length) (hne : c' ≠ c) (i : ℕ) :
    cellAt ((f.setCol c' vals).rows.getD i []) c = cellAt (f.rows.getD i []) c := by
  by_cases hi : i < f.rows.length
  · have hiz : i < (f.setCol c' vals).rows.length := by
      rw [length_rows_setCol f c' vals hlen]; exact hi
    have hiv : i < vals.length := hlen ▸ hi
    rw [getD_eq_getElem' [] hiz, getD_eq_getElem' [] hi]
    show cellAt ((List.zipWith (fun r v => rset r c' v) f.rows vals)[i]) c = _
    rw [List.getElem_zipWith]
    rw [cellAt_rset]
    exact if_neg hne
  · have hge : f.rows.length ≤ i := le_of_not_lt hi
    have hge' : (f.setCol c' vals).rows.length ≤ i := by
      rw [length_rows_setCol f c' vals hlen]; exact hge
    rw [List.getD_eq_getElem?_getD, List.getD_eq_getElem?_getD,
      List.getElem?_eq_none hge, List.getElem?_eq_none hge']

theorem untouched_setCol (f : Frame) (c c' : String) (vals : List Cell)
    (hlen : vals.length = f.rows.length) (hne : c' ≠ c) :
    Untouched f (f.setCol c' vals) c :=
  ⟨hasCol_setCol_ne f c c' vals hne,
   length_rows_setCol f c' vals hlen,
   cellAt_setCol_ne f c c' vals hlen hne⟩

theorem hasCol_setCol_self (f : Frame) (c : String) (vals : List Cell) :
    (f.setCol c vals).hasCol c = true :=
  (hasCol_true_iff _ c).mpr ((mem_cols_setCol f c c vals).mpr (Or.inl rfl))

theorem cellAt_setCol_self (f : Frame) (c : String) (vals : List Cell)
    (hlen : vals.length = f.rows.length) (i : ℕ) (hi : i < f.rows.length) :
    cellAt ((f.setCol c vals).rows.getD i []) c = vals.getD i Cell.null := by
  have hiz : i < (f.setCol c vals).rows.length := by
    rw [length_rows_setCol f c vals hlen]; exact hi
  have hiv : i < vals.length := hlen ▸ hi
  rw [getD_eq_getElem' [] hiz, getD_eq_getElem' Cell.null hiv]
  show cellAt ((List.zipWith (fun r v => rset r c v) f.rows vals)[i]) c = _
  rw [List.getElem_zipWith, cellAt_rset]
  exact if_pos rfl

/-! String facts: a derived feature name with a transform prefix is never one
of the raw gate columns. -/

theorem string_data_append (a b : String) : (a ++ b).data = a.data ++ b.data := by
  cases a; cases b; rfl

theorem log_prefix_ne_inventory (s : String) : "log_" ++ s ≠ "inventory" := by
  intro h
  have h2 := congrArg String.data h
  rw [string_data_append] at h2
  have h3 : 'l' :: 'o' :: 'g' :: '_' :: s.data =
      ['i', 'n', 'v', 'e', 'n', 't', 'o', 'r', 'y'] := h2
  injection h3 with h4 _
  exact absurd h4 (by decide)

theorem log_prefix_ne_leadtime (s : String) : "log_" ++ s ≠ "leadtime_weeks" := by
  intro h
  have h2 := congrArg String.data h
  rw [string_data_append] at h2
  have h3 : 'l' :: 'o' :: 'g' :: '_' :: s.data =
      ['l', 'e', 'a', 'd', 't', 'i', 'm', 'e', '_', 'w', 'e', 'e', 'k', 's'] := h2
  injection h3 with _ h4
  injection h4 with h5 _
  exact absurd h5 (by decide)

theorem inv_prefix_ne_inventory (s : String) : "inv_" ++ s ≠ "inventory" := by
  intro h
  have h2 := congrArg String.data h
  rw [string_data_append] at h2
  have h3 : 'i' :: 'n' :: 'v' :: '_' :: s.data =
      ['i', 'n', 'v', 'e', 'n', 't', 'o', 'r', 'y'] := h2
  injection h3 with _ h4
  injection h4 with _ h5
  injection h5 with _ h6
  injection h6 with h7 _
  exact absurd h7 (by decide)

theorem inv_prefix_ne_leadtime (s : String) : "inv_" ++ s ≠ "leadtime_weeks" := by
  intro h
  have h2 := congrArg String.data h
  rw [string_data_append] at h2
  have h3 : 'i' :: 'n' :: 'v' :: '_' :: s.data =
      ['l', 'e', 'a', 'd', 't', 'i', 'm', 'e', '_', 'w', 'e', 'e', 'k', 's'] := h2
  injection h3 with h4 _
  exact absurd h4 (by decide)

/-! Stage-by-stage preservation -/

theorem logStage_untouched (log1p : ℚ → ℚ) :
    ∀ (feats : List String) (f f' : Frame) (c : String),
      logStage log1p feats f = some f' → (∀ s, "log_" ++ s ≠ c) →
      Untouched f f' c := by
  intro feats
  induction feats with
  | nil =>
    intro f f' c h _
    simp only [logStage, Option.some.injEq] at h
    exact h ▸ untouched_refl f c
  | cons feat rest ih =>
    intro f f' c h hc
    by_cases hcol : f.hasCol feat
    · simp only [logStage, hcol, if_true, Option.bind_eq_bind,
        Option.bind_eq_some] at h
      obtain ⟨vals, hvals, hrest⟩ := h
      have hlen : vals.length = f.rows.length := mapOpt_length hvals
      exact untouched_trans
        (untouched_setCol f c ("log_" ++ feat) vals hlen (hc feat))
        (ih _ f' c hrest hc)
    · simp only [logStage, hcol, if_false] at h
      exact ih f f' c h hc

theorem invStage_untouched :
    ∀ (feats : List String) (f f' : Frame) (c : String),
      invStage feats f = some f' → (∀ s, "inv_" ++ s ≠ c) →
      Untouched f f' c := by
  intro feats
  induction feats with
  | nil =>
    intro f f' c h _
    simp only [invStage, Option.some.injEq] at h
    exact h ▸ untouched_refl f c
  | cons feat rest ih =>
    intro f f' c h hc
    by_cases hcol : f.hasCol feat
    · simp only [invStage, hcol, if_true, Option.bind_eq_bind,
        Option.bind_eq_some] at h
      obtain ⟨vals, hvals, hrest⟩ := h
      have hlen : vals.length = f.rows.length := mapOpt_length hvals
      exact untouched_trans
        (untouched_setCol f c ("inv_" ++ feat) vals hlen (hc feat))
        (ih _ f' c hrest hc)
    · simp only [invStage, hcol, if_false] at h
      exact ih f f' c h hc

theorem binaryStage_untouched (f f' : Frame) (c : String)
    (h : binaryStage f = some f')
    (hc : c ∉ ["is_authorized", "has_datasheet", "in_stock",
               "immediate_availability"]) : Untouched f f' c := by
  simp only [List.mem_cons, List.not_mem_nil, or_false, not_or] at hc
  obtain ⟨hc1, hc2, hc3, hc4⟩ := hc
  unfold binaryStage at h
  set f1 := (if f.hasCol "source_type" then
      f.setCol "is_authorized"
        (f.rows.map (fun r => isAuthorizedCell (cellAt r "source_type")))
    else f) with hf1
  set f2 := (if f1.hasCol "datasheet" then
      f1.setCol "has_datasheet"
        (f1.rows.map (fun r => hasDatasheetCell (cellAt r "datasheet")))
    else f1) with hf2
  have u1 : Untouched f f1 c := by
    rw [hf1]
    by_cases hcol : f.hasCol "source_type"
    · simp only [hcol, if_true]
      exact untouched_setCol f c "is_authorized" _ (by simp) (fun h => hc1 h.symm)
    · simp only [hcol, if_false]
      exact untouched_refl f c
  have u2 : Untouched f1 f2 c := by
    rw [hf2]
    by_cases hcol : f1.hasCol "datasheet"
    · simp only [hcol, if_true]
      exact untouched_setCol f1 c "has_datasheet" _ (by simp) (fun h => hc2 h.symm)
    · simp only [hcol, if_false]
      exact untouched_refl f1 c
  have ustep : ∀ g : Frame, Untouched g
      (if g.hasCol "leadtime_weeks" then
        g.setCol "immediate_availability"
          (g.rows.map (fun r => immediateCell (cellAt r "leadtime_weeks")))
      else g) c := by
    intro g
    by_cases hcol : g.hasCol "leadtime_weeks"
    · simp only [hcol, if_true]
      exact untouched_setCol g c "immediate_availability" _ (by simp)
        (fun h => hc4 h.symm)
    · simp only [hcol, if_false]
      exact untouched_refl g c
  by_cases hcol3 : f2.hasCol "inventory"
  · simp only [hcol3, if_true, Option.bind_eq_bind, Option.bind_eq_some,
      Option.pure_def, Option.some.injEq] at h
    obtain ⟨vals, hvals, f3, hf3, hf4⟩ := h
    have hlen : vals.length = f2.rows.length := mapOpt_length hvals
    have u3 : Untouched f2 (f2.setCol "in_stock" vals) c :=
      untouched_setCol f2 c "in_stock" vals hlen (fun h => hc3 h.symm)
    rw [← hf4, ← hf3]
    exact untouched_trans (untouched_trans (untouched_trans u1 u2) u3)
      (ustep (f2.setCol "in_stock" vals))
  · simp only [hcol3, Bool.false_eq_true, if_false, Option.bind_eq_bind,
      Option.pure_def, Option.bind_eq_some, Option.some.injEq,
      Option.some_bind] at h
    rw [← h]
    exact untouched_trans (untouched_trans u1 u2) (ustep f2)

theorem compositeStage_untouched (f f' : Frame) (c : String)
    (h : compositeStage f = some f')
    (hc : c ∉ ["availability_score", "demand_score"]) : Untouched f f' c := by
  simp only [List.mem_cons, List.not_mem_nil, or_false, not_or] at hc
  obtain ⟨hc1, hc2⟩ := hc
  unfold compositeStage at h
  have ustep : ∀ g : Frame, Untouched g
      (if g.hasCol "demand_all_time" then
        g.setCol "demand_score"
          (g.rows.map (fun r => (cellAt r "demand_all_time").fillna0))
      else g) c := by
    intro g
    by_cases hcol : g.hasCol "demand_all_time"
    · simp only [hcol, if_true]
      exact untouched_setCol g c "demand_score" _ (by simp) (fun h => hc2 h.symm)
    · simp only [hcol, if_false]
      exact untouched_refl g c
  by_cases hcol : (f.hasCol "inventory" && f.hasCol "moq") = true
  · simp only [hcol, if_true, Option.bind_eq_bind, Option.bind_eq_some,
      Option.pure_def, Option.some.injEq] at h
    obtain ⟨vals, hvals, f2, hf2a, hf2b⟩ := h
    have hlen : vals.length = f.rows.length := mapOpt_length hvals
    have u1 : Untouched f (f.setCol "availability_score" vals) c :=
      untouched_setCol f c "availability_score" vals hlen (fun h => hc1 h.symm)
    rw [← hf2b, ← hf2a]
    exact untouched_trans u1 (ustep (f.setCol "availability_score" vals))
  · simp only [hcol, Bool.false_eq_true, if_false, Option.bind_eq_bind,
      Option.pure_def, Option.bind_eq_some, Option.some.injEq,
      Option.some_bind] at h
    rw [← h]
    exact ustep f

theorem foldl_setCol_untouched (g : Frame → String → List Cell) (c : String)
    (N : ℕ) (hg : ∀ acc c', acc.rows.length = N → (g acc c').length = acc.rows.length) :
    ∀ (cs : List String) (f : Frame), f.rows.length = N →
      (∀ c' ∈ cs, c' ≠ c) →
      Untouched f (cs.foldl (fun acc c' => acc.setCol c' (g acc c')) f) c := by
  intro cs
  induction cs with
  | nil => exact fun f _ _ => untouched_refl f c
  | cons c0 rest ih =>
    intro f hN hcs
    have hlen : (g f c0).length = f.rows.length := hg f c0 hN
    have u1 : Untouched f (f.setCol c0 (g f c0)) c :=
      untouched_setCol f c c0 (g f c0) hlen (hcs c0 (by simp))
    have hN1 : (f.setCol c0 (g f c0)).rows.length = N :=
      (length_rows_setCol f c0 (g f c0) hlen).trans hN
    exact untouched_trans u1
      (ih (f.setCol c0 (g f c0)) hN1 (fun c' hc' => hcs c' (by simp [hc'])))

theorem scaleStage_untouched (f : Frame) (c : String)
    (hc : isScaleCol c = false) : Untouched f (scaleStage f) c := by
  unfold scaleStage
  have hne : ∀ c' ∈ f.cols.filter isScaleCol, c' ≠ c := by
    intro c' hc' he
    rw [he] at hc'
    exact absurd (List.of_mem_filter hc') (by simp [hc])
  have u1 : Untouched f
      ((f.cols.filter isScaleCol).foldl
        (fun acc c' => acc.setCol c' ((acc.colCells c').map Cell.fillna0)) f) c :=
    foldl_setCol_untouched (fun acc c' => (acc.colCells c').map Cell.fillna0) c
      f.rows.length (fun acc c' _ => by simp [Frame.colCells]) _ f rfl hne
  set f1 := (f.cols.filter isScaleCol).foldl
    (fun acc c' => acc.setCol c' ((acc.colCells c').map Cell.fillna0)) f with hf1
  by_cases hstr : (f.cols.filter isScaleCol).any (fun c' => (f1.colCells c').any
      (fun x => match x with | Cell.str _ => true | _ => false))
  · simpa [hstr] using u1
  · have u2 : Untouched f1
        ((f.cols.filter isScaleCol).foldl
          (fun acc c' => acc.setCol c' ((robustScale (f1.colQ c')).map Cell.num)) f1) c :=
      foldl_setCol_untouched (fun _ c' => (robustScale (f1.colQ c')).map Cell.num) c
        f1.rows.length
        (fun acc c' hN => by simp [robustScale, Frame.colQ, hN]) _ f1 rfl hne
    simpa [hstr] using untouched_trans u1 u2

/-- Feature engineering leaves a column alone when it is not one of the
stage-written names and has none of the scaling prefixes. -/
theorem transform_untouched (log1p : ℚ → ℚ) (cfg : FeatureConfig)
    (f f' : Frame) (c : String) (h : transform log1p cfg f = some f')
    (hlog : ∀ s, "log_" ++ s ≠ c) (hinv : ∀ s, "inv_" ++ s ≠ c)
    (hbin : c ∉ ["is_authorized", "has_datasheet", "in_stock",
                 "immediate_availability"])
    (hcomp : c ∉ ["availability_score", "demand_score"])
    (hsc : isScaleCol c = false) : Untouched f f' c := by
  unfold transform at h
  simp only [Option.bind_eq_bind, Option.bind_eq_some, Option.pure_def,
    Option.some.injEq] at h
  obtain ⟨f1, h1, f2, h2, f3, h3, f4, h4, h5⟩ := h
  refine untouched_trans (logStage_untouched log1p _ f f1 c h1 hlog) ?_
  refine untouched_trans (invStage_untouched _ f1 f2 c h2 hinv) ?_
  refine untouched_trans (binaryStage_untouched f2 f3 c h3 hbin) ?_
  refine untouched_trans (compositeStage_untouched f3 f4 c h4 hcomp) ?_
  exact h5 ▸ scaleStage_untouched f4 c hsc

/-- The engineered frame keeps the input's `inventory` column intact. -/
theorem transform_untouched_inventory (log1p : ℚ → ℚ) (cfg : FeatureConfig)
    (f f' : Frame) (h : transform log1p cfg f = some f') :
    Untouched f f' "inventory" :=
  transform_untouched log1p cfg f f' "inventory" h
    log_prefix_ne_inventory inv_prefix_ne_inventory (by decide) (by decide)
    (by with_unfolding_all decide)

/-- The engineered frame keeps the input's `leadtime_weeks` column intact. -/
theorem transform_untouched_leadtime (log1p : ℚ → ℚ) (cfg : FeatureConfig)
    (f f' : Frame) (h : transform log1p cfg f = some f') :
    Untouched f f' "leadtime_weeks" :=
  transform_untouched log1p cfg f f' "leadtime_weeks" h
    log_prefix_ne_leadtime inv_prefix_ne_leadtime (by decide) (by decide)
    (by with_unfolding_all decide)

/-! ## Lengths through the pipeline and the structure of the pre-sort frame -/

theorem calculate_base_score_length {weights : List (String × ℚ)} {f : Frame}
    {base : List ℚ} (h : calculate_base_score weights f = some base) :
    base.length = f.rows.length := by
  unfold calculate_base_score at h
  cases hw : weightedSums weights f with
  | none => rw [hw] at h; simp at h
  | some sums =>
    rw [hw] at h
    have hs : sums.length = f.rows.length := mapOpt_length hw
    by_cases hcol : (f.hasCol "inventory" && f.hasCol "leadtime_weeks") = true
    · simp only [hcol, Option.some_bind, if_true, Option.bind_eq_bind,
        Option.bind_eq_some, Option.pure_def, Option.some.injEq] at h
      obtain ⟨flags, hflags, hbase⟩ := h
      have hf : flags.length = f.rows.length := mapOpt_length hflags
      rw [← hbase]
      simp [List.length_zipWith, hs, hf]
    · simp only [hcol, Option.some_bind, Bool.false_eq_true, if_false,
        Option.bind_eq_bind, Option.pure_def, Option.some.injEq] at h
      rw [← h]
      exact hs

theorem boost_foldl_length {f : Frame} (rules : List (RuleId × ℚ))
    (acc : List ℚ) (h : acc.length = f.rows.length) :
    (rules.foldl (boostStep f) acc).length = f.rows.length := by
  induction rules generalizing acc with
  | nil => exact h
  | cons r rest ih => exact ih _ ((boostStep_length r h).trans h)

theorem apply_boosts_length (f : Frame) :
    (apply_boosts f).length = f.rows.length :=
  boost_foldl_length boostRules _ (by simp [Frame.colQ])

theorem normalize_scores_length (s : List ℚ) :
    (normalize_scores s).length = s.length := by
  unfold normalize_scores
  by_cases h1 : s = [] ∨ seriesMax s = seriesMin s
  · simp [h1]
  · simp only [h1, if_false]
    by_cases h2 : s.filter (fun x => 0 < x) = []
    · simp [h2]
    · simp [h2]

theorem percentileRank_length (s : List ℚ) :
    (percentileRank s).length = s.length := by
  simp [percentileRank]

/-- Unfolding of the non-empty scoring path: the pre-sort frame is the
engineered frame with the four score columns appended in order. -/
theorem scoresPreSort_spec (log1p : ℚ → ℚ) (cfg : Config) (nm : Bool)
    (f f4 : Frame) (h : scoresPreSort log1p cfg nm f = some f4) :
    ∃ eng base,
      transform log1p cfg.features f = some eng ∧
      calculate_base_score cfg.weights eng = some base ∧
      f4 = (((eng.setCol "base_score" (base.map Cell.num)).setCol "boosted_score"
          ((apply_boosts (eng.setCol "base_score" (base.map Cell.num))).map Cell.num)).setCol
          "priority_score"
          ((if nm then
              normalize_scores (apply_boosts (eng.setCol "base_score" (base.map Cell.num)))
            else
              apply_boosts (eng.setCol "base_score" (base.map Cell.num))).map Cell.num)).setCol
          "score_percentile"
          ((percentileRank
            (if nm then
              normalize_scores (apply_boosts (eng.setCol "base_score" (base.map Cell.num)))
            else
              apply_boosts (eng.setCol "base_score" (base.map Cell.num)))).map Cell.num) := by
  unfold scoresPreSort at h
  simp only [Option.bind_eq_bind, Option.bind_eq_some, Option.pure_def,
    Option.some.injEq] at h
  obtain ⟨eng, heng, base, hbase, hf4⟩ := h
  exact ⟨eng, base, heng, hbase, hf4.symm⟩

theorem scoresPreSort_length (log1p : ℚ → ℚ) (cfg : Config) (nm : Bool)
    (f f4 : Frame) (h : scoresPreSort log1p cfg nm f = some f4) :
    f4.rows.length = f.rows.length := by
  obtain ⟨eng, base, heng, hbase, hf4⟩ := scoresPreSort_spec log1p cfg nm f f4 h
  have heng_len : eng.rows.length = f.rows.length :=
    (transform_untouched_inventory log1p cfg.features f eng heng).2.1
  have hbl : base.length = eng.rows.length := calculate_base_score_length hbase
  set f1 := eng.setCol "base_score" (base.map Cell.num) with hf1
  have hl1 : f1.rows.length = eng.rows.length :=
    length_rows_setCol eng "base_score" _ (by simp [hbl])
  have hboost : (apply_boosts f1).length = f1.rows.length := apply_boosts_length f1
  set pr := (if nm then normalize_scores (apply_boosts f1) else apply_boosts f1) with hpr
  have hprl : pr.length = f1.rows.length := by
    rw [hpr]
    by_cases hn : nm <;> simp [hn, normalize_scores_length, hboost]
  set f2 := f1.setCol "boosted_score" ((apply_boosts f1).map Cell.num) with hf2
  have hl2 : f2.rows.length = f1.rows.length :=
    length_rows_setCol f1 "boosted_score" _ (by simp [hboost])
  set f3 := f2.setCol "priority_score" (pr.map Cell.num) with hf3
  have hl3 : f3.rows.length = f2.rows.length :=
    length_rows_setCol f2 "priority_score" _ (by simp [hprl, hl2])
  have hl4 : f4.rows.length = f3.rows.length := by
    rw [hf4]
    exact length_rows_setCol f3 "score_percentile" _
      (by simp [percentileRank_length, hprl, hl3, hl2])
  rw [hl4, hl3, hl2, hl1, heng_len]

/-! ## The final sort: descending, a permutation of the pre-sort rows -/

theorem sortFrame_perm (f : Frame) : (sortFrame f).rows.Perm f.rows := by
  simpa [sortFrame] using
    (List.reverse_perm (f.rows.insertionSort rowLe)).trans
      (List.perm_insertionSort rowLe f.rows)

theorem sortFrame_sorted (f : Frame) :
    List.Sorted (fun a b => priorityKey b ≤ priorityKey a) (sortFrame f).rows := by
  have hs : List.Sorted rowLe (f.rows.insertionSort rowLe) :=
    List.sorted_insertionSort rowLe f.rows
  simp only [sortFrame]
  rw [List.Sorted, List.pairwise_reverse]
  exact hs.imp (fun h => h)

/-! ## Claim C5: the scored output order -/

/-- C5 (corrected). Every scored output is sorted by `priority_score` in
descending order, preserves the input cardinality, and its rows are a
permutation of the pre-sort pipeline rows. The stable-tie part of the claim
is false (see the counterexample): the descending sort is the reverse of a
stable ascending sort, so equal priority scores come out in reverse input
order, not input order. -/
theorem c5_sorted_amended (log1p : ℚ → ℚ) (cfg : Config) (nm : Bool)
    (f out : Frame) (h : calculate_scores log1p cfg nm f = some out) :
    List.Sorted (fun a b => priorityKey b ≤ priorityKey a) out.rows ∧
    out.rows.length = f.rows.length ∧
    (∀ f4, scoresPreSort log1p cfg nm f = some f4 → out.rows.Perm f4.rows) := by
  unfold calculate_scores at h
  by_cases hemp : f.rows = []
  · simp only [hemp, if_true, Option.some.injEq] at h
    have hrows : out.rows = [] := by
      rw [← h]
      simp [emptyResult, Frame.setCol]
    refine ⟨by simp [hrows], by simp [hrows, hemp], ?_⟩
    intro f4 h4
    have := scoresPreSort_length log1p cfg nm f f4 h4
    have h4rows : f4.rows = [] := List.length_eq_zero.mp (by rw [this, hemp]; rfl)
    rw [hrows, h4rows]
  · simp only [hemp, if_false, Option.map_eq_some'] at h
    obtain ⟨f4, h4, hout⟩ := h
    rw [← hout]
    refine ⟨sortFrame_sorted f4, ?_, ?_⟩
    · rw [(sortFrame_perm f4).length_eq]
      exact scoresPreSort_length log1p cfg nm f f4 h4
    · intro g hg
      have hfg : f4 = g := Option.some.inj (h4.symm.trans hg)
      rw [← hfg]
      exact sortFrame_perm f4

/-! ## Helpers for reading single cells of the pre-sort frame -/

theorem map_num_getD (l : List ℚ) (i : ℕ) (hi : i < l.length) :
    (l.map Cell.num).getD i Cell.null = Cell.num (l.getD i 0) := by
  rw [getD_eq_getElem' Cell.null (by simpa using hi), List.getElem_map,
    getD_eq_getElem' 0 hi]

theorem colQ_getD (f : Frame) (c : String) (i : ℕ) (hi : i < f.rows.length) :
    (f.colQ c).getD i 0 =
      (match cellAt (f.rows.getD i []) c with
        | Cell.num q => q
        | _ => 0) := by
  rw [Frame.colQ, getD_eq_getElem' 0 (by simpa using hi), List.getElem_map,
    getD_eq_getElem' [] hi]

theorem getD_replicate_self (n : ℕ) (x : ℚ) (i : ℕ) :
    (List.replicate n x).getD i x = x := by
  by_cases hi : i < n
  · rw [getD_eq_getElem' x (by simpa using hi)]
    exact List.getElem_replicate x (by simpa using hi)
  · rw [List.getD_eq_getElem?_getD, List.getElem?_eq_none (by simpa using le_of_not_lt hi)]
    rfl

theorem round2_zero : round2 0 = 0 := by
  have h1 : roundHalfEven 0 = 0 := by
    unfold roundHalfEven
    norm_num
  unfold round2
  rw [zero_mul, h1]
  norm_num

/-- A zero score stays exactly 0 through `_normalize_scores` whenever the
batch is not in the all-equal branch. -/
theorem normalize_scores_getD_zero (s : List ℚ) (i : ℕ) (hi : i < s.length)
    (hz : s.getD i 0 = 0) (hne : ¬ allEqL s) :
    (normalize_scores s).getD i 0 = 0 := by
  have hcond : ¬ (s = [] ∨ seriesMax s = seriesMin s) := by
    rintro (rfl | hmm)
    · simp at hi
    · exact hne (allEq_of_max_eq_min s hmm)
  unfold normalize_scores
  rw [if_neg hcond]
  by_cases hp : s.filter (fun x => 0 < x) = []
  · rw [if_pos hp]
    exact getD_replicate_self s.length 0 i
  · rw [if_neg hp]
    rw [getD_eq_getElem' 0 (by simpa using hi), List.getElem_map,
      ← getD_eq_getElem' 0 hi, hz]
    rw [if_neg (by norm_num)]
    exact round2_zero

theorem allEqL_perm {l l' : List α} (h : l.Perm l') : allEqL l ↔ allEqL l' :=
  ⟨fun ha x hx y hy => ha x (h.mem_iff.mpr hx) y (h.mem_iff.mpr hy),
   fun ha x hx y hy => ha x (h.mem_iff.mp hx) y (h.mem_iff.mp hy)⟩

theorem allEqL_map_num (l : List ℚ) : allEqL (l.map Cell.num) ↔ allEqL l := by
  constructor
  · intro h x hx y hy
    exact Cell.num.inj
      (h (Cell.num x) (List.mem_map_of_mem Cell.num hx)
         (Cell.num y) (List.mem_map_of_mem Cell.num hy))
  · intro h x hx y hy
    obtain ⟨a, ha, rfl⟩ := List.mem_map.mp hx
    obtain ⟨b, hb, rfl⟩ := List.mem_map.mp hy
    rw [h a ha b hb]

/-! ## Claim C1: gated records in the scored output -/

/-- C1 (corrected). A record with both gate columns present, `inventory = 0`
and `leadtime_weeks > 12` always receives `base_score` exactly 0; it
receives `priority_score` exactly 0 whenever the batch's boosted scores are
not all equal. (When they are all equal — e.g. the single-record batch of
the counterexample — the normaliser gives every record 50 instead.) -/
theorem c1_gate_amended (log1p : ℚ → ℚ) (cfg : Config) (f out : Frame)
    (h : calculate_scores log1p cfg true f = some out)
    (hinv : f.hasCol "inventory" = true)
    (hlead : f.hasCol "leadtime_weeks" = true)
    (r : Row) (hr : r ∈ out.rows)
    (hri : cellAt r "inventory" = Cell.num 0)
    (hrl : ∃ q, cellAt r "leadtime_weeks" = Cell.num q ∧ 12 < q) :
    cellAt r "base_score" = Cell.num 0 ∧
    (¬ allEqL (out.rows.map (fun r' => cellAt r' "boosted_score")) →
      cellAt r "priority_score" = Cell.num 0) := by
  obtain ⟨q, hrlq, hq12⟩ := hrl
  -- the batch cannot be empty: it owns the row r
  unfold calculate_scores at h
  by_cases hemp : f.rows = []
  · exfalso
    simp only [hemp, if_true, Option.some.injEq] at h
    rw [← h] at hr
    simp [emptyResult, Frame.setCol] at hr
  simp only [hemp, if_false, Option.map_eq_some'] at h
  obtain ⟨f4, h4, hout⟩ := h
  obtain ⟨eng, base, heng, hbase, hf4⟩ := scoresPreSort_spec log1p cfg true f f4 h4
  -- names for the intermediate frames and score lists
  set f1 := eng.setCol "base_score" (base.map Cell.num) with hf1
  set boosted := apply_boosts f1 with hboostdef
  set priority := (if true then normalize_scores boosted else boosted) with hprdef
  set f2 := f1.setCol "boosted_score" (boosted.map Cell.num) with hf2
  set f3 := f2.setCol "priority_score" (priority.map Cell.num) with hf3
  -- lengths
  have uinv := transform_untouched_inventory log1p cfg.features f eng heng
  have ulead := transform_untouched_leadtime log1p cfg.features f eng heng
  have heng_len : eng.rows.length = f.rows.length := uinv.2.1
  have hbl : base.length = eng.rows.length := calculate_base_score_length hbase
  have hl1 : f1.rows.length = eng.rows.length :=
    length_rows_setCol eng "base_score" _ (by simp [hbl])
  have hboost_len : boosted.length = f1.rows.length := apply_boosts_length f1
  have hprl : priority.length = f1.rows.length := by
    rw [hprdef]
    simp [normalize_scores_length, hboost_len]
  have hl2 : f2.rows.length = f1.rows.length :=
    length_rows_setCol f1 "boosted_score" _ (by simp [hboost_len])
  have hl3 : f3.rows.length = f2.rows.length :=
    length_rows_setCol f2 "priority_score" _ (by simp [hprl, hl2])
  have hl4 : f4.rows.length = f3.rows.length := by
    rw [hf4]
    exact length_rows_setCol f3 "score_percentile" _
      (by simp [percentileRank_length, hprl, hl3, hl2])
  -- locate r as the i-th pre-sort row
  have hr4 : r ∈ f4.rows := by
    rw [← hout] at hr
    exact (sortFrame_perm f4).mem_iff.mp hr
  obtain ⟨i, hif4, hreq⟩ := List.mem_iff_getElem.mp hr4
  have hrd : f4.rows.getD i [] = r := by
    rw [getD_eq_getElem' [] hif4]; exact hreq
  have hif3 : i < f3.rows.length := by rw [← hl4]; exact hif4
  have hif2 : i < f2.rows.length := by rw [← hl3]; exact hif3
  have hif1 : i < f1.rows.length := by rw [← hl2]; exact hif2
  have hieng : i < eng.rows.length := by rw [← hl1]; exact hif1
  -- the raw gate cells of row i of the engineered frame equal those of r
  have hchain_inv : cellAt (eng.rows.getD i []) "inventory" = Cell.num 0 := by
    have s4 : cellAt (f4.rows.getD i []) "inventory" =
        cellAt (f3.rows.getD i []) "inventory" := by
      rw [hf4]
      exact cellAt_setCol_ne f3 "inventory" "score_percentile" _
        (by simp [percentileRank_length, hprl, hl3, hl2]) (by decide) i
    have s3 : cellAt (f3.rows.getD i []) "inventory" =
        cellAt (f2.rows.getD i []) "inventory" :=
      cellAt_setCol_ne f2 "inventory" "priority_score" _
        (by simp [hprl, hl2]) (by decide) i
    have s2 : cellAt (f2.rows.getD i []) "inventory" =
        cellAt (f1.rows.getD i []) "inventory" :=
      cellAt_setCol_ne f1 "inventory" "boosted_score" _
        (by simp [hboost_len]) (by decide) i
    have s1 : cellAt (f1.rows.getD i []) "inventory" =
        cellAt (eng.rows.getD i []) "inventory" :=
      cellAt_setCol_ne eng "inventory" "base_score" _ (by simp [hbl]) (by decide) i
    rw [← s1, ← s2, ← s3, ← s4, hrd]
    exact hri
  have hchain_lead : cellAt (eng.rows.getD i []) "leadtime_weeks" = Cell.num q := by
    have s4 : cellAt (f4.rows.getD i []) "leadtime_weeks" =
        cellAt (f3.rows.getD i []) "leadtime_weeks" := by
      rw [hf4]
      exact cellAt_setCol_ne f3 "leadtime_weeks" "score_percentile" _
        (by simp [percentileRank_length, hprl, hl3, hl2]) (by decide) i
    have s3 : cellAt (f3.rows.getD i []) "leadtime_weeks" =
        cellAt (f2.rows.getD i []) "leadtime_weeks" :=
      cellAt_setCol_ne f2 "leadtime_weeks" "priority_score" _
        (by simp [hprl, hl2]) (by decide) i
    have s2 : cellAt (f2.rows.getD i []) "leadtime_weeks" =
        cellAt (f1.rows.getD i []) "leadtime_weeks" :=
      cellAt_setCol_ne f1 "leadtime_weeks" "boosted_score" _
        (by simp [hboost_len]) (by decide) i
    have s1 : cellAt (f1.rows.getD i []) "leadtime_weeks" =
        cellAt (eng.rows.getD i []) "leadtime_weeks" :=
      cellAt_setCol_ne eng "leadtime_weeks" "base_score" _ (by simp [hbl]) (by decide) i
    rw [← s1, ← s2, ← s3, ← s4, hrd]
    exact hrlq
  -- the gate zeroes base[i]
  have hcoleng : (eng.hasCol "inventory" && eng.hasCol "leadtime_weeks") = true := by
    rw [uinv.1, ulead.1, hinv, hlead]
    rfl
  have hbase_i : base.getD i 0 = 0 := by
    unfold calculate_base_score at hbase
    cases hw : weightedSums cfg.weights eng with
    | none => rw [hw] at hbase; simp at hbase
    | some sums =>
      rw [hw] at hbase
      simp only [hcoleng, Option.some_bind, if_true, Option.bind_eq_bind,
        Option.bind_eq_some, Option.pure_def, Option.some.injEq] at hbase
      obtain ⟨flags, hflags, hbeq⟩ := hbase
      have hs : sums.length = eng.rows.length := mapOpt_length hw
      have hfl : flags.length = eng.rows.length := mapOpt_length hflags
      obtain ⟨hifl, hgi⟩ := mapOpt_getElem hflags i hieng
      have hflag_true : flags[i] = true := by
        have : unavailRow eng.rows[i] = some true := by
          unfold unavailRow
          rw [← getD_eq_getElem' [] hieng, hchain_lead, hchain_inv]
          simp [leadGt12, invIsZero, hq12]
        rw [this] at hgi
        exact (Option.some.inj hgi).symm
      have hbi : i < base.length := by rw [hbl]; exact hieng
      rw [← hbeq]
      have hiz : i < (List.zipWith (fun s u => if u then (0 : ℚ) else s) sums flags).length := by
        rw [List.length_zipWith, hs, hfl]
        simpa using hieng
      rw [getD_eq_getElem' 0 hiz, List.getElem_zipWith, hflag_true]
      simp
  -- conclusion 1: the base_score cell of r is 0
  have hbase_cell : cellAt r "base_score" = Cell.num 0 := by
    have s4 : cellAt (f4.rows.getD i []) "base_score" =
        cellAt (f3.rows.getD i []) "base_score" := by
      rw [hf4]
      exact cellAt_setCol_ne f3 "base_score" "score_percentile" _
        (by simp [percentileRank_length, hprl, hl3, hl2]) (by decide) i
    have s3 : cellAt (f3.rows.getD i []) "base_score" =
        cellAt (f2.rows.getD i []) "base_score" :=
      cellAt_setCol_ne f2 "base_score" "priority_score" _
        (by simp [hprl, hl2]) (by decide) i
    have s2 : cellAt (f2.rows.getD i []) "base_score" =
        cellAt (f1.rows.getD i []) "base_score" :=
      cellAt_setCol_ne f1 "base_score" "boosted_score" _
        (by simp [hboost_len]) (by decide) i
    have s1 : cellAt (f1.rows.getD i []) "base_score" = Cell.num (base.getD i 0) := by
      rw [hf1]
      rw [cellAt_setCol_self eng "base_score" _ (by simp [hbl]) i hieng]
      exact map_num_getD base i (by rw [hbl]; exact hieng)
    rw [← hrd, s4, s3, s2, s1, hbase_i]
  refine ⟨hbase_cell, ?_⟩
  -- conclusion 2: with not-all-equal boosted scores the priority cell is 0
  intro hneq
  have hb1 : (f1.colQ "base_score").getD i 0 = base.getD i 0 := by
    rw [colQ_getD f1 "base_score" i hif1]
    have s1 : cellAt (f1.rows.getD i []) "base_score" = Cell.num (base.getD i 0) := by
      rw [hf1]
      rw [cellAt_setCol_self eng "base_score" _ (by simp [hbl]) i hieng]
      exact map_num_getD base i (by rw [hbl]; exact hieng)
    rw [s1]
  have hboost_i : boosted.getD i 0 = 0 := by
    rw [hboostdef, apply_boosts_getD i hif1, hb1, hbase_i, zero_mul]
  -- transport the not-all-equal hypothesis to the boosted list
  have hmapeq : f4.rows.map (fun r' => cellAt r' "boosted_score") =
      boosted.map Cell.num := by
    apply List.ext_getElem
    · rw [List.length_map, List.length_map, hl4, hl3, hl2, hboost_len]
    · intro j hj1 hj2
      rw [List.getElem_map, List.getElem_map]
      have hjf4 : j < f4.rows.length := by simpa using hj1
      have hjf3 : j < f3.rows.length := by rw [← hl4]; exact hjf4
      have hjf2 : j < f2.rows.length := by rw [← hl3]; exact hjf3
      have hjf1 : j < f1.rows.length := by rw [← hl2]; exact hjf2
      have hjb : j < boosted.length := by rw [hboost_len]; exact hjf1
      have s4 : cellAt (f4.rows.getD j []) "boosted_score" =
          cellAt (f3.rows.getD j []) "boosted_score" := by
        rw [hf4]
        exact cellAt_setCol_ne f3 "boosted_score" "score_percentile" _
          (by simp [percentileRank_length, hprl, hl3, hl2]) (by decide) j
      have s3 : cellAt (f3.rows.getD j []) "boosted_score" =
          cellAt (f2.rows.getD j []) "boosted_score" :=
        cellAt_setCol_ne f2 "boosted_score" "priority_score" _
          (by simp [hprl, hl2]) (by decide) j
      have s2 : cellAt (f2.rows.getD j []) "boosted_score" =
          Cell.num (boosted.getD j 0) := by
        rw [hf2]
        rw [cellAt_setCol_self f1 "boosted_score" _ (by simp [hboost_len]) j hjf1]
        exact map_num_getD boosted j hjb
      rw [← getD_eq_getElem' [] hjf4, s4, s3, s2, getD_eq_getElem' 0 hjb]
  have hneq_boosted : ¬ allEqL boosted := by
    intro hall
    apply hneq
    have hperm : out.rows.map (fun r' => cellAt r' "boosted_score") =
        (sortFrame f4).rows.map (fun r' => cellAt r' "boosted_score") := by rw [hout]
    have : (out.rows.map (fun r' => cellAt r' "boosted_score")).Perm
        (boosted.map Cell.num) := by
      rw [hperm, ← hmapeq]
      exact (sortFrame_perm f4).map _
    exact (allEqL_perm this).mpr ((allEqL_map_num boosted).mpr hall)
  -- read the priority cell
  have hpr_i : priority.getD i 0 = 0 := by
    rw [hprdef]
    simp only [if_true]
    exact normalize_scores_getD_zero boosted i
      (by rw [hboost_len]; exact hif1) hboost_i hneq_boosted
  have s4 : cellAt (f4.rows.getD i []) "priority_score" =
      cellAt (f3.rows.getD i []) "priority_score" := by
    rw [hf4]
    exact cellAt_setCol_ne f3 "priority_score" "score_percentile" _
      (by simp [percentileRank_length, hprl, hl3, hl2]) (by decide) i
  have s3 : cellAt (f3.rows.getD i []) "priority_score" =
      Cell.num (priority.getD i 0) := by
    rw [hf3]
    rw [cellAt_setCol_self f2 "priority_score" _ (by simp [hprl, hl2]) i hif2]
    exact map_num_getD priority i (by rw [hprl]; exact hif1)
  rw [← hrd, s4, s3, hpr_i]

/-- The C1 witness batch: a gated record next to a live one. -/
def dfTwo : Frame :=
  { cols := ["inventory", "leadtime_weeks"]
    rows := [[("inventory", Cell.num 0), ("leadtime_weeks", Cell.num 16)],
             [("inventory", Cell.num 5), ("leadtime_weeks", Cell.num 0)]] }

/-- The gated record of `dfTwo` as it appears in the scored output. -/
def rowGated : Row :=
  [("inventory", Cell.num 0), ("leadtime_weeks", Cell.num 16),
   ("in_stock", Cell.num 0), ("immediate_availability", Cell.num 0),
   ("base_score", Cell.num 0), ("boosted_score", Cell.num 0),
   ("priority_score", Cell.num 0), ("score_percentile", Cell.num 50)]

/-- The live record of `dfTwo` as it appears in the scored output. -/
def rowLive : Row :=
  [("inventory", Cell.num 5), ("leadtime_weeks", Cell.num 0),
   ("in_stock", Cell.num 1), ("immediate_availability", Cell.num 1),
   ("base_score", Cell.num 5), ("boosted_score", Cell.num (23/4)),
   ("priority_score", Cell.num 1), ("score_percentile", Cell.num 100)]

/-- The scored output of `dfTwo`. -/
def outTwo : Frame :=
  { cols := ["inventory", "leadtime_weeks", "in_stock", "immediate_availability",
             "base_score", "boosted_score", "priority_score", "score_percentile"]
    rows := [rowLive, rowGated] }

set_option maxRecDepth 4000 in
/-- C1 witness: in the two-record batch `dfTwo` the boosted scores 23/4 and
0 differ, and the gated record receives base score 0 and priority score 0. -/
theorem c1_gate_amended_witness :
    calculate_scores idQ cfgInv true dfTwo = some outTwo ∧
    rowGated ∈ outTwo.rows ∧
    cellAt rowGated "inventory" = Cell.num 0 ∧
    ¬ allEqL (outTwo.rows.map (fun r' => cellAt r' "boosted_score")) ∧
    cellAt rowGated "base_score" = Cell.num 0 ∧
    cellAt rowGated "priority_score" = Cell.num 0 := by
  have h : calculate_scores idQ cfgInv true dfTwo = some outTwo := by
    with_unfolding_all decide
  have hneq : ¬ allEqL (outTwo.rows.map (fun r' => cellAt r' "boosted_score")) := by
    intro hall
    have h1 : Cell.num (23/4) ∈ outTwo.rows.map (fun r' => cellAt r' "boosted_score") := by
      with_unfolding_all decide
    have h2 : Cell.num 0 ∈ outTwo.rows.map (fun r' => cellAt r' "boosted_score") := by
      with_unfolding_all decide
    have := hall _ h1 _ h2
    have : (23 / 4 : ℚ) = 0 := Cell.num.inj this
    norm_num at this
  have hmain := c1_gate_amended idQ cfgInv dfTwo outTwo h
    (by with_unfolding_all decide) (by with_unfolding_all decide) rowGated
    (by with_unfolding_all decide) (by with_unfolding_all decide)
    ⟨16, by with_unfolding_all decide, by norm_num⟩
  exact ⟨h, by with_unfolding_all decide, by with_unfolding_all decide, hneq,
    hmain.1, hmain.2 hneq⟩

/-- The scored output of the tie batch `dfTie`. -/
def outTie : Frame :=
  { cols := ["pn", "base_score", "boosted_score", "priority_score",
             "score_percentile"]
    rows := [[("pn", Cell.str "B"), ("base_score", Cell.num 0),
              ("boosted_score", Cell.num 0), ("priority_score", Cell.num 50),
              ("score_percentile", Cell.num 75)],
             [("pn", Cell.str "A"), ("base_score", Cell.num 0),
              ("boosted_score", Cell.num 0), ("priority_score", Cell.num 50),
              ("score_percentile", Cell.num 75)]] }

set_option maxRecDepth 4000 in
/-- C5 witness: the amended statement evaluated on the two-record tie batch:
the output is sorted (descending) and keeps the input cardinality. -/
theorem c5_sorted_amended_witness :
    calculate_scores idQ cfgNone true dfTie = some outTie ∧
    List.Sorted (fun a b => priorityKey b ≤ priorityKey a) outTie.rows ∧
    outTie.rows.length = dfTie.rows.length := by
  have h : calculate_scores idQ cfgNone true dfTie = some outTie := by
    with_unfolding_all decide
  have hmain := c5_sorted_amended idQ cfgNone true dfTie outTie h
  exact ⟨h, hmain.1, hmain.2.1⟩

/-! ## Claim C3: the boost product formula -/

/-- C3 (confirmed). When each of the four default rules' masks evaluates
(no type exception skips a rule), every record's boosted score equals its
base score times the product of the multipliers of exactly the rules whose
predicate holds for that record; in particular, a record with base score 0
keeps boosted score 0 whatever rules match. -/
theorem c3_boost_product (f : Frame) (i : ℕ) (hi : i < f.rows.length)
    (hm : ∀ rm ∈ boostRules, (ruleMask rm.1 f).isSome) :
    (apply_boosts f).getD i 0 =
      (f.colQ "base_score").getD i 0 *
        ((boostRules.filter (fun rm => ruleMatches rm.1 f i)).map
          (fun rm => rm.2)).prod ∧
    ((f.colQ "base_score").getD i 0 = 0 → (apply_boosts f).getD i 0 = 0) := by
  constructor
  · rw [apply_boosts_getD i hi]
    congr 1
    rw [← prod_ite_eq_prod_filter boostRules (fun rm => ruleMatches rm.1 f i)]
    congr 1
    refine List.map_congr_left (fun rm hrm => ?_)
    obtain ⟨mask, hmask⟩ := Option.isSome_iff_exists.mp (hm rm hrm)
    simp [ruleFactor, ruleMatches, hmask]
  · intro h0
    rw [apply_boosts_getD i hi, h0, zero_mul]

/-- The C3 witness frame: one record matching all four rules, base score 2. -/
def fAllRules : Frame :=
  { cols := ["inventory", "moq", "leadtime_weeks", "source_type",
             "demand_all_time", "base_score"]
    rows := [[("inventory", Cell.num 100), ("moq", Cell.num 1),
              ("leadtime_weeks", Cell.num 0), ("source_type", Cell.str "Authorized"),
              ("demand_all_time", Cell.num 500), ("base_score", Cell.num 2)]] }

set_option maxRecDepth 2000 in
/-- C3 witness: on a record matching all four rules the boosted score
evaluates to 2 x 1.1 x 1.15 x 1.05 x 1.08 = 143451/50000. -/
theorem c3_boost_product_witness :
    (0 < fAllRules.rows.length ∧
      ∀ rm ∈ boostRules, (ruleMask rm.1 fAllRules).isSome) ∧
    (apply_boosts fAllRules).getD 0 0 =
      (fAllRules.colQ "base_score").getD 0 0 *
        ((boostRules.filter (fun rm => ruleMatches rm.1 fAllRules 0)).map
          (fun rm => rm.2)).prod ∧
    (apply_boosts fAllRules).getD 0 0 = 143451 / 50000 := by
  refine ⟨⟨by decide, by with_unfolding_all decide⟩, ?_, ?_⟩
  · exact (c3_boost_product fAllRules 0 (by decide)
      (by with_unfolding_all decide)).1
  · with_unfolding_all rfl

/-- C9 (corrected). For a record with `leadtime_weeks = 0` whose base score
is non-negative, the boost stage never decreases the score: every applied
multiplier is at least 1. (The counterexample shows the non-negativity
hypothesis is needed: a negative base score strictly decreases.) -/
theorem c9_boost_monotone_amended (f : Frame) (i : ℕ) (hi : i < f.rows.length)
    (hlead : cellAt (f.rows.getD i []) "leadtime_weeks" = Cell.num 0)
    (hbase : 0 ≤ (f.colQ "base_score").getD i 0) :
    (f.colQ "base_score").getD i 0 ≤ (apply_boosts f).getD i 0 := by
  rw [apply_boosts_getD i hi]
  have hprod : 1 ≤ ((boostRules.map (ruleFactor f i)).prod : ℚ) := by
    refine one_le_listProd _ ?_
    intro x hx
    obtain ⟨rm, hrm, rfl⟩ := List.mem_map.mp hx
    unfold ruleFactor
    cases hmk : ruleMask rm.1 f with
    | none => exact le_refl 1
    | some mask =>
      dsimp only
      by_cases hv : mask.getD i false
      · simp only [hv, if_true]
        simp only [boostRules, List.mem_cons, List.not_mem_nil, or_false] at hrm
        rcases hrm with rfl | rfl | rfl | rfl <;> norm_num
      · rw [List.getD_eq_getElem?_getD] at hv
        simp [hv]
  nlinarith [hbase, hprod]

/-- The C9 witness frame: an immediately shipping record with base score 4. -/
def fPosBase : Frame :=
  { cols := ["leadtime_weeks", "base_score"]
    rows := [[("leadtime_weeks", Cell.num 0), ("base_score", Cell.num 4)]] }

/-- C9 witness: with a non-negative base score 4 and `leadtime_weeks = 0`
the boosted score 4 x 1.15 = 23/5 is at least the base score. -/
theorem c9_boost_monotone_amended_witness :
    (0 < fPosBase.rows.length ∧
      cellAt (fPosBase.rows.getD 0 []) "leadtime_weeks" = Cell.num 0 ∧
      (0 : ℚ) ≤ (fPosBase.colQ "base_score").getD 0 0) ∧
    (fPosBase.colQ "base_score").getD 0 0 ≤ (apply_boosts fPosBase).getD 0 0 ∧
    (apply_boosts fPosBase).getD 0 0 = 23/5 := by
  refine ⟨⟨by decide, by with_unfolding_all decide, by with_unfolding_all decide⟩, ?_, ?_⟩
  · exact c9_boost_monotone_amended fPosBase 0 (by decide)
      (by with_unfolding_all decide) (by with_unfolding_all decide)
  · with_unfolding_all decide

end ScriptBank
